import Mathlib

/-
  A shallow embedding of the BadgerDB buffer manager implemented in
  src/src/buffer.cpp, together with proofs about its public operations.

  The source file buffer.cpp is the authority for every operation it
  defines (BufMgr constructor, disposePage, advanceClock, allocBuf,
  readPage, unPinPage, flushFile, allocPage).  The collaborators that
  buffer.cpp only calls (BufDesc::Set, BufDesc::Clear from buffer.h, the
  BufHashTbl slot index, and the File/Page disk abstraction) are not part
  of the repository snapshot, so they are modelled from the spec, as
  marked in their doc comments.

  Machine integers (FrameId, PageId, std::uint32_t) are modelled as Nat:
  no arithmetic in buffer.cpp can overflow in any scenario considered
  here (pin counts and page ids only grow by small increments).
  File* pointers are modelled as Nat handles; the NULL file pointer of an
  empty descriptor is modelled as Option.none.
-/

deriving instance DecidableEq for Except

namespace BufModel

/-- Errors thrown by the buffer manager and its collaborators.
    bufferExceeded = BufferExceededException, pagePinned =
    PagePinnedException, pageNotPinned = PageNotPinnedException,
    badBuffer = BadBufferException (the spec calls it InvalidFrameError),
    hashNotFound = HashNotFoundException, hashAlreadyPresent = the slot
    index insert failure, invalidPage = InvalidPageException from
    File::readPage. -/
inductive BufError where
  | bufferExceeded
  | pagePinned
  | pageNotPinned
  | badBuffer
  | hashNotFound
  | hashAlreadyPresent
  | invalidPage
deriving DecidableEq

/-- A disk page: its page number and its (opaque, here Nat) content. -/
structure Page where
  page_number : Nat
  data : Nat
deriving DecidableEq

/-- Modelled from the spec: the frame descriptor of buffer.h ("per-slot
    metadata (validity, dirty flag, reference bit, pin count, owning
    file, page identity)"); owner and pageNo are optional, "absent when
    valid = false". -/
structure BufDesc where
  frameNo : Nat
  valid : Bool
  file : Option Nat
  pageNo : Option Nat
  refbit : Bool
  pinCnt : Nat
  dirty : Bool
deriving DecidableEq

/-- The empty descriptor for slot i, as produced on construction and by
    BufDesc.Clear. -/
def mkBufDesc (i : Nat) : BufDesc :=
  { frameNo := i, valid := false, file := none, pageNo := none,
    refbit := false, pinCnt := 0, dirty := false }

/-- Modelled from the spec: BufDesc::Clear of buffer.h resets the slot to
    "logically empty" (invariant 4: a valid = false frame carries no
    meaningful owner/pageId/dirty/referenced state); the slot id itself
    is retained. -/
def BufDesc.Clear (d : BufDesc) : BufDesc :=
  { d with valid := false, file := none, pageNo := none,
           refbit := false, pinCnt := 0, dirty := false }

/-- Modelled from the spec: BufDesc::Set of buffer.h initializes the
    descriptor of a freshly loaded frame: "valid=true, dirty=false,
    referenced=false, pinCount=1, owner/pageId set". -/
def BufDesc.Set (d : BufDesc) (f p : Nat) : BufDesc :=
  { d with valid := true, file := some f, pageNo := some p,
           refbit := false, pinCnt := 1, dirty := false }

/-- A call made to the file collaborator, recorded in order. -/
inductive DiskOp where
  | readP (f p : Nat)
  | writeP (f : Nat) (pg : Page)
  | allocP (f p : Nat)
  | deleteP (f p : Nat)
deriving DecidableEq

/-- Modelled from the spec: the state of one file of the disk
    collaborator: its pages (page number to content) and the next fresh
    page number handed out by allocatePage. -/
structure FileState where
  pages : List (Nat × Nat)
  nextPage : Nat
deriving DecidableEq

/-- Modelled from the spec: File::readPage, "fails if the page does not
    exist". -/
def fsRead (fs : FileState) (p : Nat) : Option Nat :=
  (fs.pages.find? (fun e => decide (e.1 = p))).map (fun e => e.2)

/-- Modelled from the spec: File::writePage "persists a page keyed by the
    content's own page number". -/
def fsWrite (fs : FileState) (p d : Nat) : FileState :=
  { fs with pages :=
      if (fs.pages.find? (fun e => decide (e.1 = p))).isSome
      then fs.pages.map (fun e => if e.1 = p then (p, d) else e)
      else fs.pages ++ [(p, d)] }

/-- Modelled from the spec: File::deletePage "permanently removes a
    page". -/
def fsDelete (fs : FileState) (p : Nat) : FileState :=
  { fs with pages := fs.pages.filter (fun e => !(decide (e.1 = p))) }

/-- Modelled from the spec: File::allocatePage "creates and returns a new
    page with a freshly assigned page number". -/
def fsAlloc (fs : FileState) : Page × FileState :=
  (⟨fs.nextPage, 0⟩,
   { pages := fs.pages ++ [(fs.nextPage, 0)], nextPage := fs.nextPage + 1 })

/-- The whole state mutated by buffer.cpp: the descriptor table, the
    buffer pool, the slot index (BufHashTbl, modelled as an association
    list), the clock hand, the module-level scratch variable fid of
    buffer.cpp line 26, the disk (all files), and the ordered trace of
    calls made to the file collaborator. -/
structure BufState where
  bufDescTable : List BufDesc
  bufPool : List Page
  hashTable : List ((Nat × Nat) × Nat)
  clockHand : Nat
  fid : Nat
  files : List (Nat × FileState)
  events : List DiskOp
deriving DecidableEq

/-- numBufs is the size of the pool (buffer.cpp stores it separately; it
    always equals the descriptor table length). -/
def numBufs (st : BufState) : Nat := st.bufDescTable.length

def getDesc (st : BufState) (i : Nat) : BufDesc :=
  st.bufDescTable.getD i (mkBufDesc 0)

def setDesc (st : BufState) (i : Nat) (d : BufDesc) : BufState :=
  { st with bufDescTable := st.bufDescTable.set i d }

def getPool (st : BufState) (i : Nat) : Page :=
  st.bufPool.getD i ⟨0, 0⟩

/-- Modelled from the spec: BufHashTbl::lookup, "fails with NotFoundError
    if absent" (here: returns none). -/
def htLookup (ht : List ((Nat × Nat) × Nat)) (f p : Nat) : Option Nat :=
  (ht.find? (fun e => decide (e.1 = (f, p)))).map (fun e => e.2)

def htContains (ht : List ((Nat × Nat) × Nat)) (f p : Nat) : Bool :=
  (htLookup ht f p).isSome

/-- Modelled from the spec: BufHashTbl::remove. -/
def htRemove (ht : List ((Nat × Nat) × Nat)) (f p : Nat) :
    List ((Nat × Nat) × Nat) :=
  ht.filter (fun e => !(decide (e.1 = (f, p))))

/-- Modelled from the spec: BufHashTbl::insert ("fails if the identity
    already exists"; callers below check htContains first). -/
def htInsert (ht : List ((Nat × Nat) × Nat)) (f p i : Nat) :
    List ((Nat × Nat) × Nat) :=
  ((f, p), i) :: ht

def getFileD (fl : List (Nat × FileState)) (f : Nat) : FileState :=
  ((fl.find? (fun e => decide (e.1 = f))).map (fun e => e.2)).getD
    { pages := [], nextPage := 0 }

def setFile (fl : List (Nat × FileState)) (f : Nat) (fs : FileState) :
    List (Nat × FileState) :=
  (f, fs) :: fl.filter (fun e => !(decide (e.1 = f)))

/-- file-&gt;readPage(pageNo) performed on the buffer-manager state: none
    when the page does not exist (InvalidPageException in the source). -/
def fileReadPage (st : BufState) (f p : Nat) : Option (Page × BufState) :=
  match fsRead (getFileD st.files f) p with
  | none => none
  | some d =>
      some (⟨p, d⟩, { st with events := st.events ++ [.readP f p] })

/-- file-&gt;writePage(pg) performed on the buffer-manager state. -/
def fileWritePage (st : BufState) (f : Nat) (pg : Page) : BufState :=
  { st with
    files := setFile st.files f
      (fsWrite (getFileD st.files f) pg.page_number pg.data),
    events := st.events ++ [.writeP f pg] }

/-- file-&gt;allocatePage() performed on the buffer-manager state. -/
def fileAllocatePage (st : BufState) (f : Nat) : Page × BufState :=
  let r := fsAlloc (getFileD st.files f)
  (r.1, { st with files := setFile st.files f r.2,
                  events := st.events ++ [.allocP f r.1.page_number] })

/-- file-&gt;deletePage(pageNo) performed on the buffer-manager state. -/
def fileDeletePage (st : BufState) (f p : Nat) : BufState :=
  { st with files := setFile st.files f (fsDelete (getFileD st.files f) p),
            events := st.events ++ [.deleteP f p] }

/-- BufMgr::advanceClock, buffer.cpp lines 94-98:
    clockHand++; clockHand = clockHand % numBufs. -/
def advanceClock (st : BufState) : BufState :=
  { st with clockHand := (st.clockHand + 1) % numBufs st }

/-- The state reached by the eviction branch of allocBuf (buffer.cpp
    lines 118-126 followed by the Clear at line 145), when the slot at
    position c of stm (the state at that visit) is the victim with
    identity (f, p): the mapping is removed from the slot index, a dirty
    victim is written back through its file (a clean one is cleared at
    line 124), and line 145 clears the descriptor in either case. -/
def victimEvict (stm : BufState) (c f p : Nat) : BufState :=
  let d := getDesc stm c
  let st2 := { stm with hashTable := htRemove stm.hashTable f p }
  let st3 := if d.dirty then fileWritePage st2 f (getPool st2 c)
             else setDesc st2 c d.Clear
  setDesc st3 c ((getDesc st3 c).Clear)

/-- BufMgr::allocBuf, buffer.cpp lines 106-146, as a fuel-indexed
    recursion (the C++ while loop).  starting is the value of clockHand
    saved at line 109 before the loop.  Returns the result of the call
    (the chosen frame id, or the thrown exception), the state after the
    call, and the number of advanceClock steps taken; none means the
    fuel ran out (the wrapper allocBuf below supplies enough fuel for
    every pool with numBufs at least 1). -/
def allocBufAux (starting : Nat) :
    Nat → BufState → Option (Except BufError Nat × BufState × Nat)
  | 0, _ => none
  | fuel + 1, st =>
    let st1 := advanceClock st
    let c := st1.clockHand
    let d := getDesc st1 c
    if d.valid then
      if d.refbit then
        -- line 137: clear refbit and continue
        match allocBufAux starting fuel
            (setDesc st1 c { d with refbit := false }) with
        | none => none
        | some (res, st2, k) => some (res, st2, k + 1)
      else
        if d.pinCnt = 0 then
          -- lines 117-126: the victim
          match d.file, d.pageNo with
          | some f, some p =>
            if htContains st1.hashTable f p then
              some (.ok d.frameNo, victimEvict st1 c f p, 1)
            else some (.error .hashNotFound, st1, 1)
          | _, _ => some (.error .hashNotFound, st1, 1)
        else
          -- lines 128-133: pinned; throw when back at the start
          if starting = c then some (.error .bufferExceeded, st1, 1)
          else
            match allocBufAux starting fuel st1 with
            | none => none
            | some (res, st2, k) => some (res, st2, k + 1)
    else
      -- lines 140-143: an invalid frame is immediately usable
      let st4 := setDesc st1 c (d.Clear)
      some (.ok d.frameNo, st4, 1)

/-- BufMgr::allocBuf with the fuel bound 2*numBufs+2 (the sweep always
    terminates within two revolutions). -/
def allocBuf (st : BufState) : Option (Except BufError Nat × BufState) :=
  (allocBufAux st.clockHand (2 * numBufs st + 2) st).map
    (fun r => (r.1, r.2.1))

/-- BufMgr::readPage, buffer.cpp lines 157-176.  Returns the frame id the
    out-parameter page points at (page = bufPool + fid) and the state
    after the call; errors carry the state at the throw. -/
def readPage (st : BufState) (f p : Nat) :
    Option (Except BufError Nat × BufState) :=
  match htLookup st.hashTable f p with
  | some i =>
    -- hit: lines 171-175
    let st1 := { st with fid := i }
    let d := getDesc st1 i
    some (.ok i, setDesc st1 i { d with refbit := true, pinCnt := d.pinCnt + 1 })
  | none =>
    -- miss: lines 163-170
    match allocBuf st with
    | none => none
    | some (.error e, st1) => some (.error e, st1)
    | some (.ok v, st1) =>
      let st2 := { st1 with fid := v }
      match fileReadPage st2 f p with
      | none => some (.error .invalidPage, st2)
      | some (pg, st3) =>
        let st4 := { st3 with bufPool := st3.bufPool.set v pg }
        if htContains st4.hashTable f p then
          some (.error .hashAlreadyPresent, st4)
        else
          let st5 := { st4 with hashTable := htInsert st4.hashTable f p v }
          some (.ok v, setDesc st5 v ((getDesc st5 v).Set f p))

/-- BufMgr::unPinPage, buffer.cpp lines 186-208.  A missing mapping is
    caught (lines 192-194) and silently ignored. -/
def unPinPage (st : BufState) (f p : Nat) (dirty : Bool) :
    Except BufError Unit × BufState :=
  match htLookup st.hashTable f p with
  | none => (.ok (), st)
  | some i =>
    let st1 := { st with fid := i }
    let d := getDesc st1 i
    if d.pinCnt = 0 then (.error .pageNotPinned, st1)
    else
      let d1 := { d with pinCnt := d.pinCnt - 1 }
      let d2 := if dirty then { d1 with dirty := true } else d1
      (.ok (), setDesc st1 i d2)

/-- The loop body of BufMgr::flushFile, buffer.cpp lines 222-241,
    iterating over the given frame indices. -/
def flushLoop (f : Nat) : List Nat → BufState → Except BufError Unit × BufState
  | [], st => (.ok (), st)
  | i :: rest, st =>
    let d := getDesc st i
    if d.file = some f then
      if d.pinCnt ≠ 0 then (.error .pagePinned, st)
      else if !d.valid then (.error .badBuffer, st)
      else
        let st1 := if d.dirty
                   then setDesc (fileWritePage st f (getPool st i)) i
                          { (getDesc (fileWritePage st f (getPool st i)) i)
                            with dirty := false }
                   else st
        match (getDesc st1 i).pageNo with
        | some p =>
          if htContains st1.hashTable f p then
            let st2 := { st1 with hashTable := htRemove st1.hashTable f p }
            flushLoop f rest (setDesc st2 i ((getDesc st2 i).Clear))
          else (.error .hashNotFound, st1)
        | none => (.error .hashNotFound, st1)
    else flushLoop f rest st

/-- BufMgr::flushFile, buffer.cpp lines 220-242. -/
def flushFile (st : BufState) (f : Nat) : Except BufError Unit × BufState :=
  flushLoop f (List.range (numBufs st)) st

/-- The loop body of BufMgr::disposePage, buffer.cpp lines 75-86. -/
def disposeLoop (f p : Nat) :
    List Nat → BufState → Except BufError Unit × BufState
  | [], st => (.ok (), st)
  | i :: rest, st =>
    let d := getDesc st i
    if d.file = some f ∧ d.pageNo = some p then
      if d.pinCnt > 0 then (.error .pagePinned, st)
      else
        let st1 := setDesc st i d.Clear
        if htContains st1.hashTable f p then
          disposeLoop f p rest { st1 with hashTable := htRemove st1.hashTable f p }
        else (.error .hashNotFound, st1)
    else disposeLoop f p rest st

/-- BufMgr::disposePage, buffer.cpp lines 74-88: scan the pool for the
    identity, then in all successful cases delete the page from the
    file. -/
def disposePage (st : BufState) (f p : Nat) : Except BufError Unit × BufState :=
  match disposeLoop f p (List.range (numBufs st)) st with
  | (.ok _, st1) => (.ok (), fileDeletePage st1 f p)
  | r => r

/-- BufMgr::allocPage, buffer.cpp lines 253-264:
    file allocation happens before the frame allocation. -/
def allocPage (st : BufState) (f : Nat) :
    Option (Except BufError (Nat × Nat) × BufState) :=
  let r0 := fileAllocatePage st f
  let newPage := r0.1
  let st0 := r0.2
  match allocBuf st0 with
  | none => none
  | some (.error e, st1) => some (.error e, st1)
  | some (.ok v, st1) =>
    let st2 := { st1 with fid := v, bufPool := st1.bufPool.set v newPage }
    let pgNo := (getPool st2 v).page_number
    if htContains st2.hashTable f pgNo then
      some (.error .hashAlreadyPresent, st2)
    else
      let st3 := { st2 with hashTable := htInsert st2.hashTable f pgNo v }
      some (.ok (pgNo, v), setDesc st3 v ((getDesc st3 v).Set f pgNo))

/-- The BufMgr constructor, buffer.cpp lines 32-49: all descriptors
    invalid with frameNo = i, empty slot index, clockHand = bufs - 1.
    The module-level fid starts at 0. -/
def mkBufMgr (bufs : Nat) (files : List (Nat × FileState)) : BufState :=
  { bufDescTable := (List.range bufs).map mkBufDesc,
    bufPool := List.replicate bufs ⟨0, 0⟩,
    hashTable := [],
    clockHand := bufs - 1,
    fid := 0,
    files := files,
    events := [] }

/-- The intermediate state of allocPage after the frame allocation: the
    scratch fid points at the chosen frame and the new page has been
    copied into the pool (buffer.cpp lines 256-257). -/
def allocMid (st1 : BufState) (v : Nat) (pg : Page) : BufState :=
  { st1 with fid := v, bufPool := st1.bufPool.set v pg }

/-- The key under which a descriptor's identity appears in the slot
    index (meaningful when both owner and pageNo are present). -/
def descKey (d : BufDesc) : Nat × Nat := (d.file.getD 0, d.pageNo.getD 0)

/-- A slot-index entry is consistent with the descriptor table: it points
    at a valid in-range frame holding exactly that identity. -/
def entryOK (st : BufState) (e : (Nat × Nat) × Nat) : Prop :=
  e.2 < numBufs st ∧ (getDesc st e.2).valid = true ∧
  (getDesc st e.2).file = some e.1.1 ∧ (getDesc st e.2).pageNo = some e.1.2

/-- The state invariant of the buffer manager (spec section 3): parallel
    pool and descriptor arrays, the clock hand in range, frame ids equal
    to slot positions, invalid slots logically empty, and the slot index
    the exact inverse of the set of valid identity-bearing frames. -/
def Inv (st : BufState) : Prop :=
  st.bufPool.length = st.bufDescTable.length ∧
  st.clockHand < numBufs st ∧
  (∀ i, i < numBufs st → (getDesc st i).frameNo = i) ∧
  (∀ i, i < numBufs st → (getDesc st i).valid = false →
      getDesc st i = mkBufDesc i) ∧
  (st.hashTable.map Prod.fst).Nodup ∧
  (∀ e ∈ st.hashTable, entryOK st e) ∧
  (∀ i, i < numBufs st → (getDesc st i).valid = true →
      (getDesc st i).file.isSome = true ∧ (getDesc st i).pageNo.isSome = true ∧
      (descKey (getDesc st i), i) ∈ st.hashTable)

instance (st : BufState) (e : (Nat × Nat) × Nat) : Decidable (entryOK st e) := by
  unfold entryOK; infer_instance

instance (st : BufState) : Decidable (Inv st) := by
  unfold Inv; infer_instance

/-- A descriptor with its reference bit cleared. -/
def clearRef (d : BufDesc) : BufDesc := { d with refbit := false }

/-- The descriptor tables of two states agree except that some
    reference bits may have been cleared in the second. -/
def refbitOnly (st st' : BufState) : Prop :=
  ∀ i, getDesc st' i = getDesc st i ∨ getDesc st' i = clearRef (getDesc st i)

/-- Everything observable about the state except the module-level
    scratch variable fid. -/
def obs (st : BufState) :
    List BufDesc × List Page × List ((Nat × Nat) × Nat) × Nat ×
    List (Nat × FileState) × List DiskOp :=
  (st.bufDescTable, st.bufPool, st.hashTable, st.clockHand, st.files, st.events)

/-- Projection used to chain concrete scenario states. -/
def afterRead (r : Option (Except BufError Nat × BufState)) (d : BufState) :
    BufState :=
  match r with
  | some (_, st) => st
  | none => d

/-- A concrete four-page file used in the scenarios. -/
def fsA : FileState := { pages := [(0, 10), (1, 11), (2, 12), (3, 13)], nextPage := 4 }

/-- A freshly constructed three-slot pool over that file. -/
def stInit3 : BufState := mkBufMgr 3 [(0, fsA)]

def stF1 : BufState := afterRead (readPage stInit3 0 0) stInit3

def stF2 : BufState := afterRead (readPage stF1 0 1) stF1

/-- The three-slot pool after fetching pages 0, 1 and 2: every slot
    pinned. -/
def stF3 : BufState := afterRead (readPage stF2 0 2) stF2

/-- Shorthand for a concrete descriptor. -/
def cD (i : Nat) (v : Bool) (f p : Option Nat) (r : Bool) (pin : Nat)
    (dr : Bool) : BufDesc :=
  { frameNo := i, valid := v, file := f, pageNo := p, refbit := r,
    pinCnt := pin, dirty := dr }

/-- Two-slot state: slot 0 pinned and unreferenced, slot 1 (the starting
    position of the next sweep) unpinned but referenced.  The sweep must
    pass its starting position once (clearing slot 1's refbit) before it
    can take slot 1 on the second pass. -/
def stWrap : BufState :=
  { bufDescTable := [cD 0 true (some 0) (some 1) false 1 false,
                     cD 1 true (some 0) (some 2) true 0 false],
    bufPool := [⟨1, 5⟩, ⟨2, 6⟩],
    hashTable := [((0, 1), 0), ((0, 2), 1)],
    clockHand := 1, fid := 0,
    files := [(0, { pages := [(1, 5), (2, 6)], nextPage := 3 })],
    events := [] }

/-- One-slot state whose only slot is pinned and referenced: frame
    allocation fails, but only after clearing the reference bit. -/
def st1pin : BufState :=
  { bufDescTable := [cD 0 true (some 0) (some 5) true 1 false],
    bufPool := [⟨5, 99⟩],
    hashTable := [((0, 5), 0)],
    clockHand := 0, fid := 0,
    files := [(0, { pages := [(5, 99)], nextPage := 6 })],
    events := [] }

/-- Two-slot state for the second-chance scenario: slot 0 (A) referenced,
    slot 1 (B) unreferenced, both valid and unpinned; the sweep starts
    just before A. -/
def stAB : BufState :=
  { bufDescTable := [cD 0 true (some 0) (some 1) true 0 false,
                     cD 1 true (some 0) (some 2) false 0 false],
    bufPool := [⟨1, 5⟩, ⟨2, 6⟩],
    hashTable := [((0, 1), 0), ((0, 2), 1)],
    clockHand := 1, fid := 0,
    files := [(0, { pages := [(1, 5), (2, 6)], nextPage := 3 })],
    events := [] }

/-- The state after running allocBuf on stAB. -/
def stABafter : BufState := ((allocBuf stAB).getD (.ok 0, stAB)).2

/-- One-slot state whose only slot is valid, unreferenced, unpinned and
    dirty: the next frame allocation must evict it and write it back. -/
def stDirty : BufState :=
  { bufDescTable := [cD 0 true (some 0) (some 5) false 0 true],
    bufPool := [⟨5, 77⟩],
    hashTable := [((0, 5), 0)],
    clockHand := 0, fid := 0,
    files := [(0, { pages := [(5, 99)], nextPage := 6 })],
    events := [] }

/-- The state after running allocBuf on stDirty. -/
def stDirtyAfter : BufState := ((allocBuf stDirty).getD (.ok 0, stDirty)).2

/-- The state after the failed frame allocation of st1pin (the reference
    bit of the only slot has been cleared). -/
def st1pinAfter : BufState :=
  ((allocPage st1pin 0).getD (.ok (0, 0), st1pin)).2

/-- The state after the sweep of st1pin driven directly through
    allocBufAux (to expose the step count). -/
def st1pinSwept : BufState :=
  ((allocBufAux st1pin.clockHand 4 st1pin).getD
    (.error .bufferExceeded, st1pin, 0)).2.1

/-- One-slot corrupt state: the slot claims ownership of file 0 but is
    not valid, so flushing file 0 reports the bad buffer. -/
def stBad : BufState :=
  { bufDescTable := [cD 0 false (some 0) (some 5) false 0 false],
    bufPool := [⟨5, 77⟩],
    hashTable := [],
    clockHand := 0, fid := 0,
    files := [(0, { pages := [(5, 77)], nextPage := 6 })],
    events := [] }

/- ### The claims' conclusion predicates -/

/-- Amended form of claim C1: the failing operations really are read-only
    on pool, slot index, disk and event trace, but only up to clearing of
    reference bits in the descriptor table, and only for the failure modes
    listed here (a fetch whose disk read fails commits the eviction first,
    so it is excluded). -/
def C1amended : Prop :=
  (∀ (st : BufState) (f p : Nat) (md : Bool) (e : BufError),
     (unPinPage st f p md).1 = .error e →
     obs (unPinPage st f p md).2 = obs st) ∧
  (∀ (st st' : BufState) (f p : Nat) (e : BufError), Inv st →
     disposePage st f p = (.error e, st') → e = .pagePinned ∧ st' = st) ∧
  (∀ (st st' : BufState) (f p : Nat),
     readPage st f p = some (.error .bufferExceeded, st') →
     st'.bufPool = st.bufPool ∧ st'.hashTable = st.hashTable ∧
     st'.events = st.events ∧ st'.files = st.files ∧ refbitOnly st st') ∧
  (∀ (st st' : BufState) (f : Nat),
     allocPage st f = some (.error .bufferExceeded, st') →
     st'.bufPool = st.bufPool ∧ st'.hashTable = st.hashTable ∧
     refbitOnly st st')

/-- C2, the hit half: the descriptor of the cached frame gets its
    reference bit set and its pin count incremented by one, everything
    else (including the disk and the event trace) is untouched. -/
def C2hit (st : BufState) (f p i : Nat) : Prop :=
  ∃ st', readPage st f p = some (.ok i, st') ∧
    (getDesc st' i).refbit = true ∧
    (getDesc st' i).pinCnt = (getDesc st i).pinCnt + 1 ∧
    (getDesc st' i).valid = (getDesc st i).valid ∧
    (getDesc st' i).dirty = (getDesc st i).dirty ∧
    (getDesc st' i).file = (getDesc st i).file ∧
    (getDesc st' i).pageNo = (getDesc st i).pageNo ∧
    (∀ j, j ≠ i → getDesc st' j = getDesc st j) ∧
    st'.events = st.events ∧ st'.files = st.files ∧
    st'.bufPool = st.bufPool ∧ st'.hashTable = st.hashTable ∧
    st'.clockHand = st.clockHand

/-- C2, the miss half when the replacer fails: the error propagates. -/
def C2missNoFrame (st : BufState) (f p : Nat) : Prop :=
  ∀ st1, allocBuf st = some (.error .bufferExceeded, st1) →
    readPage st f p = some (.error .bufferExceeded, st1)

/-- C2, the miss half when the replacer hands out frame v and the page
    exists on disk: the page is read into slot v, the mapping inserted,
    and the descriptor initialized. -/
def C2missFrame (st : BufState) (f p : Nat) : Prop :=
  ∀ v st1 dta, allocBuf st = some (.ok v, st1) →
    fsRead (getFileD st1.files f) p = some dta →
    ∃ st4, readPage st f p = some (.ok v, st4) ∧
      v < numBufs st ∧
      (getDesc st4 v).valid = true ∧ (getDesc st4 v).dirty = false ∧
      (getDesc st4 v).refbit = false ∧ (getDesc st4 v).pinCnt = 1 ∧
      (getDesc st4 v).file = some f ∧ (getDesc st4 v).pageNo = some p ∧
      getPool st4 v = ⟨p, dta⟩ ∧
      htLookup st4.hashTable f p = some v ∧
      st4.events = st1.events ++ [DiskOp.readP f p]

/-- C2 assembled: case split on the slot-index lookup. -/
def C2concl (st : BufState) (f p : Nat) : Prop :=
  (∀ i, htLookup st.hashTable f p = some i → C2hit st f p i) ∧
  (htLookup st.hashTable f p = none →
    C2missNoFrame st f p ∧ C2missFrame st f p)

/-- Amended form of claim C3, the only-if direction: when the sweep fails
    with BufferExceededError it has taken a positive multiple of numBufs
    steps from the start of this call (so the cursor is back exactly at
    its starting position), the slot there is valid, unreferenced and
    pinned, and nothing but reference bits has changed. -/
def C3only (st : BufState) : Prop :=
  ∀ fuel st' k,
    allocBufAux st.clockHand fuel st = some (.error .bufferExceeded, st', k) →
    st.clockHand < numBufs st →
    numBufs st ∣ k ∧ numBufs st ≤ k ∧
    st'.clockHand = st.clockHand ∧
    (getDesc st' st.clockHand).valid = true ∧
    (getDesc st' st.clockHand).refbit = false ∧
    (getDesc st' st.clockHand).pinCnt ≠ 0 ∧
    refbitOnly st st' ∧ st'.hashTable = st.hashTable ∧
    st'.events = st.events

/-- C4, invalid slot: a visited slot with valid = false is returned
    immediately (after the Clear of buffer.cpp line 145). -/
def C4invalid : Prop :=
  ∀ (starting fuel : Nat) (st : BufState),
    (getDesc (advanceClock st) (advanceClock st).clockHand).valid = false →
    allocBufAux starting (fuel + 1) st =
      some (.ok (getDesc (advanceClock st) (advanceClock st).clockHand).frameNo,
            setDesc (advanceClock st) (advanceClock st).clockHand
              ((getDesc (advanceClock st) (advanceClock st).clockHand).Clear),
            1)

/-- C4, referenced slot: the reference bit is cleared and the sweep
    continues to the next slot. -/
def C4second : Prop :=
  ∀ (starting fuel : Nat) (st : BufState),
    (getDesc (advanceClock st) (advanceClock st).clockHand).valid = true →
    (getDesc (advanceClock st) (advanceClock st).clockHand).refbit = true →
    allocBufAux starting (fuel + 1) st =
      (match allocBufAux starting fuel
          (setDesc (advanceClock st) (advanceClock st).clockHand
            (clearRef (getDesc (advanceClock st) (advanceClock st).clockHand))) with
       | none => none
       | some (res, st2, k) => some (res, st2, k + 1))

/-- C4, victim slot: a visited valid, unreferenced, unpinned slot is the
    victim; its mapping leaves the slot index and its descriptor ends up
    cleared. -/
def C4victim : Prop :=
  ∀ (starting fuel : Nat) (st : BufState) (f p : Nat),
    (getDesc (advanceClock st) (advanceClock st).clockHand).valid = true →
    (getDesc (advanceClock st) (advanceClock st).clockHand).refbit = false →
    (getDesc (advanceClock st) (advanceClock st).clockHand).pinCnt = 0 →
    (getDesc (advanceClock st) (advanceClock st).clockHand).file = some f →
    (getDesc (advanceClock st) (advanceClock st).clockHand).pageNo = some p →
    htContains (advanceClock st).hashTable f p = true →
    allocBufAux starting (fuel + 1) st =
      some (.ok (getDesc (advanceClock st) (advanceClock st).clockHand).frameNo,
            victimEvict (advanceClock st) (advanceClock st).clockHand f p, 1) ∧
    htLookup (victimEvict (advanceClock st) (advanceClock st).clockHand f p).hashTable
      f p = none ∧
    ((advanceClock st).clockHand < numBufs st →
      getDesc (victimEvict (advanceClock st) (advanceClock st).clockHand f p)
        (advanceClock st).clockHand =
        (getDesc (advanceClock st) (advanceClock st).clockHand).Clear)

/-- C4, the A/B second-chance scenario on the concrete state stAB: slot 0
    (A, referenced) survives with its reference bit cleared, slot 1 (B,
    unreferenced) is evicted. -/
def C4scenario : Prop :=
  allocBuf stAB = some (.ok 1, stABafter) ∧
  (getDesc stABafter 0).valid = true ∧
  (getDesc stABafter 0).refbit = false ∧
  (getDesc stABafter 1).valid = false ∧
  htLookup stABafter.hashTable 0 2 = none ∧
  htLookup stABafter.hashTable 0 1 = some 0

/-- C4 assembled. -/
def C4concl : Prop := C4invalid ∧ C4second ∧ C4victim ∧ C4scenario

/-- C5: a dirty frame handed out by the replacer was written back through
    its owning file, with its exact pool content, before reuse. -/
def C5concl (st : BufState) (v : Nat) (st1 : BufState) : Prop :=
  ∃ f, (getDesc st v).file = some f ∧
    st1.events = st.events ++ [DiskOp.writeP f (getPool st v)] ∧
    st1.bufPool = st.bufPool

/-- C6: the uniqueness/exact-inverse invariant holds and is preserved by
    the five public operations. -/
def C6concl (st : BufState) : Prop :=
  (∀ f p r st', readPage st f p = some (r, st') → Inv st') ∧
  (∀ f p md, Inv (unPinPage st f p md).2) ∧
  (∀ f r st', allocPage st f = some (r, st') → Inv st') ∧
  (∀ f p, Inv (disposePage st f p).2) ∧
  (∀ f, Inv (flushFile st f).2) ∧
  (∀ i j fx px, i < numBufs st → j < numBufs st →
    (getDesc st i).valid = true → (getDesc st j).valid = true →
    (getDesc st i).file = some fx → (getDesc st i).pageNo = some px →
    (getDesc st j).file = some fx → (getDesc st j).pageNo = some px →
    i = j) ∧
  (∀ fx px i, htLookup st.hashTable fx px = some i ↔
    (i < numBufs st ∧ (getDesc st i).valid = true ∧
     (getDesc st i).file = some fx ∧ (getDesc st i).pageNo = some px))

/-- C8: release on a mapped identity fails with PageNotPinnedError on a
    pin count of zero (leaving the observable state unchanged), otherwise
    decrements the pin count by exactly one and ors the sticky dirty
    flag with markDirty. -/
def C8concl (st : BufState) (f p : Nat) (md : Bool) : Prop :=
  ∀ i, htLookup st.hashTable f p = some i →
    ((getDesc st i).pinCnt = 0 →
      (unPinPage st f p md).1 = .error .pageNotPinned ∧
      obs (unPinPage st f p md).2 = obs st) ∧
    ((getDesc st i).pinCnt ≠ 0 →
      ∃ st', unPinPage st f p md = (.ok (), st') ∧
        (getDesc st' i).pinCnt + 1 = (getDesc st i).pinCnt ∧
        (getDesc st' i).dirty = ((getDesc st i).dirty || md) ∧
        (getDesc st' i).valid = (getDesc st i).valid ∧
        (getDesc st' i).refbit = (getDesc st i).refbit ∧
        (getDesc st' i).file = (getDesc st i).file ∧
        (getDesc st' i).pageNo = (getDesc st i).pageNo ∧
        (∀ j, j ≠ i → getDesc st' j = getDesc st j) ∧
        st'.bufPool = st.bufPool ∧ st'.hashTable = st.hashTable ∧
        st'.events = st.events ∧ st'.files = st.files ∧
        st'.clockHand = st.clockHand)

/-- C9, the successful flush: every slot owned by the file is unpinned
    and valid, so the flush succeeds, no slot references the file
    afterwards, the slot index holds no mapping for the file, dirty
    slots were written back, and a second flush is a no-op. -/
def C9ok (st : BufState) (f : Nat) : Prop :=
  Inv st →
  (∀ i, i < numBufs st → (getDesc st i).file = some f →
     (getDesc st i).pinCnt = 0 ∧ (getDesc st i).valid = true) →
  (flushFile st f).1 = .ok () ∧
  (∀ i, i < numBufs st → ¬((getDesc (flushFile st f).2 i).file = some f)) ∧
  (∀ q, htLookup (flushFile st f).2.hashTable f q = none) ∧
  (∀ i, i < numBufs st → (getDesc st i).file = some f →
     (getDesc st i).dirty = true →
     DiskOp.writeP f (getPool st i) ∈ (flushFile st f).2.events) ∧
  flushFile (flushFile st f).2 f = (.ok (), (flushFile st f).2)

/-- C9, the pinned failure. -/
def C9pinned (st : BufState) (f : Nat) : Prop :=
  Inv st →
  (∃ i, i < numBufs st ∧ (getDesc st i).file = some f ∧
    (getDesc st i).pinCnt ≠ 0) →
  (flushFile st f).1 = .error .pagePinned

/-- C9, the invalid-frame failure: the first slot owned by the file is
    unpinned but invalid (a corrupt state, so no invariant is assumed). -/
def C9bad (st : BufState) (f : Nat) : Prop :=
  ∀ i0, i0 < numBufs st →
    (∀ j, j < i0 → ¬((getDesc st j).file = some f)) →
    (getDesc st i0).file = some f → (getDesc st i0).pinCnt = 0 →
    (getDesc st i0).valid = false →
    flushFile st f = (.error .badBuffer, st)

/-- C9 assembled. -/
def C9concl (st : BufState) (f : Nat) : Prop :=
  C9ok st f ∧ C9pinned st f ∧ C9bad st f

/-- C10: dispose of a cached pinned page fails with PagePinnedError and
    changes nothing (in particular deletePage is not invoked); dispose of
    a cached unpinned page clears the descriptor, removes the mapping and
    deletes the page from disk; dispose of an uncached page just deletes
    it from disk. -/
def C10concl (st : BufState) (f p : Nat) : Prop :=
  (Inv st → ∀ i, i < numBufs st → (getDesc st i).file = some f →
     (getDesc st i).pageNo = some p →
     ((getDesc st i).pinCnt > 0 →
        disposePage st f p = (.error .pagePinned, st)) ∧
     ((getDesc st i).pinCnt = 0 →
        (disposePage st f p).1 = .ok () ∧
        getDesc (disposePage st f p).2 i = mkBufDesc i ∧
        (∀ j, j ≠ i → getDesc (disposePage st f p).2 j = getDesc st j) ∧
        htLookup (disposePage st f p).2.hashTable f p = none ∧
        (disposePage st f p).2.events = st.events ++ [DiskOp.deleteP f p] ∧
        fsRead (getFileD (disposePage st f p).2.files f) p = none)) ∧
  ((∀ i, i < numBufs st →
      ¬((getDesc st i).file = some f ∧ (getDesc st i).pageNo = some p)) →
     disposePage st f p = (.ok (), fileDeletePage st f p) ∧
     (disposePage st f p).2.bufDescTable = st.bufDescTable ∧
     (disposePage st f p).2.hashTable = st.hashTable ∧
     (disposePage st f p).2.events = st.events ++ [DiskOp.deleteP f p] ∧
     fsRead (getFileD (disposePage st f p).2.files f) p = none)

/- ### Basic lemmas about the accessors -/

lemma numBufs_setDesc (st : BufState) (i : Nat) (d : BufDesc) :
    numBufs (setDesc st i d) = numBufs st := by
  simp [numBufs, setDesc]

lemma getDesc_setDesc_self (st : BufState) {i : Nat} (d : BufDesc)
    (h : i < numBufs st) : getDesc (setDesc st i d) i = d := by
  simp [getDesc, setDesc, List.getD_eq_getElem?_getD, List.getElem?_set_self h]

lemma getDesc_setDesc_ne (st : BufState) {i j : Nat} (d : BufDesc)
    (h : i ≠ j) : getDesc (setDesc st i d) j = getDesc st j := by
  simp [getDesc, setDesc, List.getD_eq_getElem?_getD, List.getElem?_set_ne h]

lemma lt_of_valid {st : BufState} {i : Nat}
    (h : (getDesc st i).valid = true) : i < numBufs st := by
  by_contra hn
  have hnone : st.bufDescTable[i]? = none :=
    List.getElem?_eq_none (Nat.le_of_not_lt hn)
  simp [getDesc, List.getD_eq_getElem?_getD, hnone, mkBufDesc] at h

lemma Clear_Clear (d : BufDesc) : d.Clear.Clear = d.Clear := rfl

lemma Clear_eq_mkBufDesc (d : BufDesc) : d.Clear = mkBufDesc d.frameNo := rfl

lemma clearRef_clearRef (d : BufDesc) : clearRef (clearRef d) = clearRef d := rfl

lemma clearRef_mkBufDesc (i : Nat) : clearRef (mkBufDesc i) = mkBufDesc i := rfl

lemma refbitOnly_refl (st : BufState) : refbitOnly st st := fun _ => Or.inl rfl

lemma refbitOnly_trans {s1 s2 s3 : BufState}
    (h12 : refbitOnly s1 s2) (h23 : refbitOnly s2 s3) : refbitOnly s1 s3 := by
  intro i
  rcases h23 i with h | h <;> rcases h12 i with h' | h'
  · exact Or.inl (h.trans h')
  · exact Or.inr (h.trans h')
  · exact Or.inr (by rw [h, h'])
  · exact Or.inr (by rw [h, h', clearRef_clearRef])

lemma refbitOnly_fields {st st' : BufState} (h : refbitOnly st st') (i : Nat) :
    (getDesc st' i).valid = (getDesc st i).valid ∧
    (getDesc st' i).file = (getDesc st i).file ∧
    (getDesc st' i).pageNo = (getDesc st i).pageNo ∧
    (getDesc st' i).pinCnt = (getDesc st i).pinCnt ∧
    (getDesc st' i).dirty = (getDesc st i).dirty ∧
    (getDesc st' i).frameNo = (getDesc st i).frameNo := by
  rcases h i with h' | h' <;> rw [h'] <;> exact ⟨rfl, rfl, rfl, rfl, rfl, rfl⟩

/- ### Lemmas about the slot index -/

lemma htLookup_eq_none {ht : List ((Nat × Nat) × Nat)} {f p : Nat} :
    htLookup ht f p = none ↔ ∀ e ∈ ht, e.1 ≠ (f, p) := by
  simp [htLookup, Option.map_eq_none', List.find?_eq_none]

lemma htLookup_mem {ht : List ((Nat × Nat) × Nat)} {f p i : Nat}
    (h : htLookup ht f p = some i) : ((f, p), i) ∈ ht := by
  unfold htLookup at h
  rcases Option.map_eq_some'.1 h with ⟨e, hfind, hval⟩
  have hmem := List.mem_of_find?_eq_some hfind
  have hkey := List.find?_some hfind
  rw [decide_eq_true_eq] at hkey
  have : e = ((f, p), i) := by
    rcases e with ⟨k, v⟩
    simp only at hkey hval
    rw [hkey, hval]
  rw [this] at hmem
  exact hmem

lemma mem_htRemove {ht : List ((Nat × Nat) × Nat)} {f p : Nat}
    {e : (Nat × Nat) × Nat} :
    e ∈ htRemove ht f p ↔ e ∈ ht ∧ e.1 ≠ (f, p) := by
  simp [htRemove, List.mem_filter]

lemma htRemove_keys_nodup {ht : List ((Nat × Nat) × Nat)} {f p : Nat}
    (h : (ht.map Prod.fst).Nodup) :
    ((htRemove ht f p).map Prod.fst).Nodup :=
  List.Nodup.sublist ((List.filter_sublist ht).map Prod.fst) h

lemma htLookup_htRemove_self (ht : List ((Nat × Nat) × Nat)) (f p : Nat) :
    htLookup (htRemove ht f p) f p = none := by
  rw [htLookup_eq_none]
  intro e he
  exact (mem_htRemove.1 he).2

lemma htContains_of_mem {ht : List ((Nat × Nat) × Nat)} {f p i : Nat}
    (h : ((f, p), i) ∈ ht) : htContains ht f p = true := by
  unfold htContains htLookup
  induction ht with
  | nil => cases h
  | cons a t ih =>
    by_cases ha : a.1 = (f, p)
    · rw [List.find?_cons_of_pos t (by simpa using ha)]
      rfl
    · rcases List.mem_cons.1 h with h' | h'
      · exact absurd (congrArg Prod.fst h'.symm) ha
      · rw [List.find?_cons_of_neg t (by simpa using ha)]
        exact ih h'

lemma htLookup_of_mem_nodup {ht : List ((Nat × Nat) × Nat)} {f p i : Nat}
    (hmem : ((f, p), i) ∈ ht) (hnd : (ht.map Prod.fst).Nodup) :
    htLookup ht f p = some i := by
  induction ht with
  | nil => cases hmem
  | cons a t ih =>
    rw [List.map_cons, List.nodup_cons] at hnd
    by_cases ha : a.1 = (f, p)
    · rcases List.mem_cons.1 hmem with h' | h'
      · unfold htLookup
        rw [List.find?_cons_of_pos t (by simpa using ha), h'.symm]
        rfl
      · exact absurd (ha ▸ List.mem_map_of_mem Prod.fst h') hnd.1
    · rcases List.mem_cons.1 hmem with h' | h'
      · exact absurd (congrArg Prod.fst h'.symm) ha
      · unfold htLookup
        rw [List.find?_cons_of_neg t (by simpa using ha)]
        exact ih h' hnd.2

lemma eq_of_mem_nodup_keys {l : List ((Nat × Nat) × Nat)}
    (hnd : (l.map Prod.fst).Nodup) {e1 e2 : (Nat × Nat) × Nat}
    (h1 : e1 ∈ l) (h2 : e2 ∈ l) (hk : e1.1 = e2.1) : e1 = e2 := by
  induction l with
  | nil => cases h1
  | cons a t ih =>
    rw [List.map_cons, List.nodup_cons] at hnd
    rcases List.mem_cons.1 h1 with ha1 | ht1 <;>
      rcases List.mem_cons.1 h2 with ha2 | ht2
    · rw [ha1, ha2]
    · subst ha1
      exact absurd (hk ▸ List.mem_map_of_mem Prod.fst ht2) hnd.1
    · subst ha2
      exact absurd (hk ▸ List.mem_map_of_mem Prod.fst ht1) hnd.1
    · exact ih hnd.2 ht1 ht2

/- ### Lemmas about the disk collaborator -/

lemma getFileD_setFile_self (fl : List (Nat × FileState)) (f : Nat)
    (fs : FileState) : getFileD (setFile fl f fs) f = fs := by
  unfold getFileD setFile
  rw [List.find?_cons_of_pos _ (by simp)]
  rfl

lemma fsRead_fsDelete_self (fs : FileState) (p : Nat) :
    fsRead (fsDelete fs p) p = none := by
  unfold fsRead fsDelete
  rw [Option.map_eq_none', List.find?_eq_none]
  intro e he
  rcases List.mem_filter.1 he with ⟨_, hne⟩
  simpa using hne

/- ### Lemmas about the eviction step -/

lemma victimEvict_bufPool (stm : BufState) (c f p : Nat) :
    (victimEvict stm c f p).bufPool = stm.bufPool := by
  unfold victimEvict
  by_cases hd : (getDesc stm c).dirty = true <;>
    simp [hd, setDesc, fileWritePage]

lemma victimEvict_clockHand (stm : BufState) (c f p : Nat) :
    (victimEvict stm c f p).clockHand = stm.clockHand := by
  unfold victimEvict
  by_cases hd : (getDesc stm c).dirty = true <;>
    simp [hd, setDesc, fileWritePage]

lemma victimEvict_fid (stm : BufState) (c f p : Nat) :
    (victimEvict stm c f p).fid = stm.fid := by
  unfold victimEvict
  by_cases hd : (getDesc stm c).dirty = true <;>
    simp [hd, setDesc, fileWritePage]

lemma victimEvict_numBufs (stm : BufState) (c f p : Nat) :
    numBufs (victimEvict stm c f p) = numBufs stm := by
  unfold victimEvict
  by_cases hd : (getDesc stm c).dirty = true <;>
    simp [hd, setDesc, fileWritePage, numBufs]

lemma victimEvict_hashTable (stm : BufState) (c f p : Nat) :
    (victimEvict stm c f p).hashTable = htRemove stm.hashTable f p := by
  unfold victimEvict
  by_cases hd : (getDesc stm c).dirty = true <;>
    simp [hd, setDesc, fileWritePage]

lemma victimEvict_events_dirty (stm : BufState) (c f p : Nat)
    (hd : (getDesc stm c).dirty = true) :
    (victimEvict stm c f p).events =
      stm.events ++ [DiskOp.writeP f (getPool stm c)] := by
  unfold victimEvict
  simp [hd, setDesc, fileWritePage, getPool]

lemma victimEvict_events_clean (stm : BufState) (c f p : Nat)
    (hd : (getDesc stm c).dirty = false) :
    (victimEvict stm c f p).events = stm.events := by
  unfold victimEvict
  simp [hd, setDesc, fileWritePage]

lemma victimEvict_files_clean (stm : BufState) (c f p : Nat)
    (hd : (getDesc stm c).dirty = false) :
    (victimEvict stm c f p).files = stm.files := by
  unfold victimEvict
  simp [hd, setDesc, fileWritePage]

lemma getDesc_victimEvict_self (stm : BufState) {c : Nat} (f p : Nat)
    (hc : c < numBufs stm) :
    getDesc (victimEvict stm c f p) c = (getDesc stm c).Clear := by
  simp only [victimEvict]
  by_cases hd : (getDesc stm c).dirty = true
  · rw [if_pos hd]
    have h1 : c < numBufs (fileWritePage
        { stm with hashTable := htRemove stm.hashTable f p } f
        (getPool { stm with hashTable := htRemove stm.hashTable f p } c)) := hc
    rw [getDesc_setDesc_self _ _ h1]
    rfl
  · rw [if_neg hd]
    have h2 : c < numBufs
        (setDesc { stm with hashTable := htRemove stm.hashTable f p } c
          (getDesc stm c).Clear) := by
      rw [numBufs_setDesc]; exact hc
    rw [getDesc_setDesc_self _ _ h2]
    have h3 : c < numBufs ({ stm with hashTable := htRemove stm.hashTable f p } : BufState) := hc
    rw [getDesc_setDesc_self _ _ h3]
    exact Clear_Clear _

lemma getDesc_victimEvict_ne (stm : BufState) {c : Nat} (f p : Nat) {j : Nat}
    (h : c ≠ j) : getDesc (victimEvict stm c f p) j = getDesc stm j := by
  simp only [victimEvict]
  by_cases hd : (getDesc stm c).dirty = true
  · rw [if_pos hd, getDesc_setDesc_ne _ _ h]
    rfl
  · rw [if_neg hd, getDesc_setDesc_ne _ _ h, getDesc_setDesc_ne _ _ h]
    rfl

/- ### One-step unfolding of the clock sweep -/

lemma allocBufAux_succ (starting fuel : Nat) (st : BufState) :
    allocBufAux starting (fuel + 1) st =
      (let st1 := advanceClock st
       let c := st1.clockHand
       let d := getDesc st1 c
       if d.valid then
         if d.refbit then
           match allocBufAux starting fuel
               (setDesc st1 c { d with refbit := false }) with
           | none => none
           | some (res, st2, k) => some (res, st2, k + 1)
         else
           if d.pinCnt = 0 then
             match d.file, d.pageNo with
             | some f, some p =>
               if htContains st1.hashTable f p then
                 some (.ok d.frameNo, victimEvict st1 c f p, 1)
               else some (.error .hashNotFound, st1, 1)
             | _, _ => some (.error .hashNotFound, st1, 1)
           else
             if starting = c then some (.error .bufferExceeded, st1, 1)
             else
               match allocBufAux starting fuel st1 with
               | none => none
               | some (res, st2, k) => some (res, st2, k + 1)
       else
         some (.ok d.frameNo, setDesc st1 c (d.Clear), 1)) := rfl

lemma allocBufAux_step_invalid (starting fuel : Nat) (st : BufState)
    (hv : (getDesc (advanceClock st) (advanceClock st).clockHand).valid = false) :
    allocBufAux starting (fuel + 1) st =
      some (.ok (getDesc (advanceClock st) (advanceClock st).clockHand).frameNo,
            setDesc (advanceClock st) (advanceClock st).clockHand
              ((getDesc (advanceClock st) (advanceClock st).clockHand).Clear),
            1) := by
  rw [allocBufAux_succ]
  rw [if_neg (by rw [hv]; exact Bool.false_ne_true)]

lemma allocBufAux_step_ref (starting fuel : Nat) (st : BufState)
    (hv : (getDesc (advanceClock st) (advanceClock st).clockHand).valid = true)
    (hr : (getDesc (advanceClock st) (advanceClock st).clockHand).refbit = true) :
    allocBufAux starting (fuel + 1) st =
      (match allocBufAux starting fuel
          (setDesc (advanceClock st) (advanceClock st).clockHand
            (clearRef (getDesc (advanceClock st) (advanceClock st).clockHand))) with
       | none => none
       | some (res, st2, k) => some (res, st2, k + 1)) := by
  rw [allocBufAux_succ]
  rw [if_pos hv, if_pos hr]
  rfl

lemma allocBufAux_step_throw (starting fuel : Nat) (st : BufState)
    (hv : (getDesc (advanceClock st) (advanceClock st).clockHand).valid = true)
    (hr : (getDesc (advanceClock st) (advanceClock st).clockHand).refbit = false)
    (hp : (getDesc (advanceClock st) (advanceClock st).clockHand).pinCnt ≠ 0)
    (hs : starting = (advanceClock st).clockHand) :
    allocBufAux starting (fuel + 1) st =
      some (.error .bufferExceeded, advanceClock st, 1) := by
  rw [allocBufAux_succ]
  rw [if_pos hv, if_neg (by rw [hr]; exact Bool.false_ne_true), if_neg hp,
      if_pos hs]

lemma allocBufAux_step_skip (starting fuel : Nat) (st : BufState)
    (hv : (getDesc (advanceClock st) (advanceClock st).clockHand).valid = true)
    (hr : (getDesc (advanceClock st) (advanceClock st).clockHand).refbit = false)
    (hp : (getDesc (advanceClock st) (advanceClock st).clockHand).pinCnt ≠ 0)
    (hs : starting ≠ (advanceClock st).clockHand) :
    allocBufAux starting (fuel + 1) st =
      (match allocBufAux starting fuel (advanceClock st) with
       | none => none
       | some (res, st2, k) => some (res, st2, k + 1)) := by
  rw [allocBufAux_succ]
  rw [if_pos hv, if_neg (by rw [hr]; exact Bool.false_ne_true), if_neg hp,
      if_neg hs]

lemma allocBufAux_step_victim (starting fuel : Nat) (st : BufState) (f p : Nat)
    (hv : (getDesc (advanceClock st) (advanceClock st).clockHand).valid = true)
    (hr : (getDesc (advanceClock st) (advanceClock st).clockHand).refbit = false)
    (hp : (getDesc (advanceClock st) (advanceClock st).clockHand).pinCnt = 0)
    (hf : (getDesc (advanceClock st) (advanceClock st).clockHand).file = some f)
    (hpg : (getDesc (advanceClock st) (advanceClock st).clockHand).pageNo = some p) :
    allocBufAux starting (fuel + 1) st =
      (if htContains (advanceClock st).hashTable f p then
        some (.ok (getDesc (advanceClock st) (advanceClock st).clockHand).frameNo,
              victimEvict (advanceClock st) (advanceClock st).clockHand f p, 1)
       else some (.error .hashNotFound, advanceClock st, 1)) := by
  rw [allocBufAux_succ]
  rw [if_pos hv, if_neg (by rw [hr]; exact Bool.false_ne_true), if_pos hp,
      hf, hpg]

lemma sweep_compose {st st2 st' : BufState} {k2 : Nat}
    (h1 : numBufs st2 = numBufs st) (h2 : st2.fid = st.fid)
    (h3 : st2.bufPool = st.bufPool)
    (h4 : st2.clockHand = (st.clockHand + 1) % numBufs st)
    (hc : numBufs st' = numBufs st2 ∧ st'.fid = st2.fid ∧
          st'.bufPool = st2.bufPool ∧ 1 ≤ k2 ∧
          st'.clockHand = (st2.clockHand + k2) % numBufs st2) :
    numBufs st' = numBufs st ∧ st'.fid = st.fid ∧ st'.bufPool = st.bufPool ∧
    1 ≤ k2 + 1 ∧ st'.clockHand = (st.clockHand + (k2 + 1)) % numBufs st := by
  obtain ⟨c1, c2, c3, c4, c5⟩ := hc
  refine ⟨c1.trans h1, c2.trans h2, c3.trans h3, Nat.le_add_left 1 k2, ?_⟩
  rw [c5, h1, h4, Nat.mod_add_mod]
  have harith : st.clockHand + 1 + k2 = st.clockHand + (k2 + 1) := by omega
  rw [harith]

lemma allocBufAux_common (starting : Nat) :
    ∀ (fuel : Nat) (st st' : BufState) (res : Except BufError Nat) (k : Nat),
      allocBufAux starting fuel st = some (res, st', k) →
      numBufs st' = numBufs st ∧ st'.fid = st.fid ∧ st'.bufPool = st.bufPool ∧
      1 ≤ k ∧ st'.clockHand = (st.clockHand + k) % numBufs st := by
  intro fuel
  induction fuel with
  | zero =>
    intro st st' res k h
    exact absurd h (by simp [allocBufAux])
  | succ fuel ih =>
    intro st st' res k h
    by_cases hv : (getDesc (advanceClock st) (advanceClock st).clockHand).valid = true
    · by_cases hr : (getDesc (advanceClock st) (advanceClock st).clockHand).refbit = true
      · rw [allocBufAux_step_ref starting fuel st hv hr] at h
        rcases hrec : allocBufAux starting fuel
            (setDesc (advanceClock st) (advanceClock st).clockHand
              (clearRef (getDesc (advanceClock st) (advanceClock st).clockHand)))
          with _ | ⟨res2, stB, k2⟩
        · rw [hrec] at h; exact absurd h (by simp)
        · rw [hrec] at h
          simp only [Option.some.injEq, Prod.mk.injEq] at h
          obtain ⟨hres, hst, hk⟩ := h
          subst hres; subst hst; subst hk
          exact sweep_compose (by rw [numBufs_setDesc]; rfl) (by rfl) (by rfl)
            (by rfl) (ih _ _ _ _ hrec)
      · rw [Bool.not_eq_true] at hr
        by_cases hp : (getDesc (advanceClock st) (advanceClock st).clockHand).pinCnt = 0
        · rcases hfile : (getDesc (advanceClock st) (advanceClock st).clockHand).file
            with _ | f
          · rw [allocBufAux_succ] at h
            rw [if_pos hv, if_neg (by rw [hr]; exact Bool.false_ne_true),
                if_pos hp, hfile] at h
            simp only [Option.some.injEq, Prod.mk.injEq] at h
            obtain ⟨hres, hst, hk⟩ := h
            subst hres; subst hst; subst hk
            exact ⟨rfl, rfl, rfl, Nat.le_refl 1, rfl⟩
          · rcases hpage : (getDesc (advanceClock st) (advanceClock st).clockHand).pageNo
              with _ | p
            · rw [allocBufAux_succ] at h
              rw [if_pos hv, if_neg (by rw [hr]; exact Bool.false_ne_true),
                  if_pos hp, hfile, hpage] at h
              simp only [Option.some.injEq, Prod.mk.injEq] at h
              obtain ⟨hres, hst, hk⟩ := h
              subst hres; subst hst; subst hk
              exact ⟨rfl, rfl, rfl, Nat.le_refl 1, rfl⟩
            · rw [allocBufAux_step_victim starting fuel st f p hv hr hp hfile hpage] at h
              by_cases hcont : htContains (advanceClock st).hashTable f p = true
              · rw [if_pos hcont] at h
                simp only [Option.some.injEq, Prod.mk.injEq] at h
                obtain ⟨hres, hst, hk⟩ := h
                subst hres; subst hst; subst hk
                refine ⟨?_, ?_, ?_, Nat.le_refl 1, ?_⟩
                · rw [victimEvict_numBufs]; rfl
                · rw [victimEvict_fid]
                  rfl
                · rw [victimEvict_bufPool]
                  rfl
                · rw [victimEvict_clockHand]; rfl
              · rw [if_neg hcont] at h
                simp only [Option.some.injEq, Prod.mk.injEq] at h
                obtain ⟨hres, hst, hk⟩ := h
                subst hres; subst hst; subst hk
                exact ⟨rfl, rfl, rfl, Nat.le_refl 1, rfl⟩
        · by_cases hs : starting = (advanceClock st).clockHand
          · rw [allocBufAux_step_throw starting fuel st hv hr hp hs] at h
            simp only [Option.some.injEq, Prod.mk.injEq] at h
            obtain ⟨hres, hst, hk⟩ := h
            subst hres; subst hst; subst hk
            exact ⟨rfl, rfl, rfl, Nat.le_refl 1, rfl⟩
          · rw [allocBufAux_step_skip starting fuel st hv hr hp hs] at h
            rcases hrec : allocBufAux starting fuel (advanceClock st)
              with _ | ⟨res2, stB, k2⟩
            · rw [hrec] at h; exact absurd h (by simp)
            · rw [hrec] at h
              simp only [Option.some.injEq, Prod.mk.injEq] at h
              obtain ⟨hres, hst, hk⟩ := h
              subst hres; subst hst; subst hk
              exact sweep_compose (by rfl) (by rfl) (by rfl) (by rfl)
                (ih _ _ _ _ hrec)
    · rw [Bool.not_eq_true] at hv
      rw [allocBufAux_step_invalid starting fuel st hv] at h
      simp only [Option.some.injEq, Prod.mk.injEq] at h
      obtain ⟨hres, hst, hk⟩ := h
      subst hres; subst hst; subst hk
      refine ⟨?_, rfl, rfl, Nat.le_refl 1, ?_⟩
      · rw [numBufs_setDesc]; rfl
      · rfl

lemma getDesc_congr {st st' : BufState}
    (h : st'.bufDescTable = st.bufDescTable) (i : Nat) :
    getDesc st' i = getDesc st i := by
  unfold getDesc; rw [h]

lemma numBufs_congr {st st' : BufState}
    (h : st'.bufDescTable = st.bufDescTable) :
    numBufs st' = numBufs st := by
  unfold numBufs; rw [h]

lemma refbitOnly_setClear {st st1 : BufState}
    (hdesc : st1.bufDescTable = st.bufDescTable) {c : Nat}
    (hc : c < numBufs st) :
    refbitOnly st (setDesc st1 c (clearRef (getDesc st1 c))) := by
  intro i
  by_cases hci : c = i
  · subst hci
    rw [getDesc_setDesc_self _ _ (by rw [numBufs_congr hdesc]; exact hc),
        getDesc_congr hdesc]
    exact Or.inr rfl
  · rw [getDesc_setDesc_ne _ _ hci, getDesc_congr hdesc]
    exact Or.inl rfl

lemma allocBufAux_error (starting : Nat) :
    ∀ (fuel : Nat) (st st' : BufState) (e : BufError) (k : Nat),
      allocBufAux starting fuel st = some (.error e, st', k) →
      st'.hashTable = st.hashTable ∧ st'.events = st.events ∧
      st'.files = st.files ∧ refbitOnly st st' ∧
      (e = .bufferExceeded →
        st'.clockHand = starting ∧
        (getDesc st' starting).valid = true ∧
        (getDesc st' starting).refbit = false ∧
        (getDesc st' starting).pinCnt ≠ 0) := by
  intro fuel
  induction fuel with
  | zero =>
    intro st st' e k h
    exact absurd h (by simp [allocBufAux])
  | succ fuel ih =>
    intro st st' e k h
    by_cases hv : (getDesc (advanceClock st) (advanceClock st).clockHand).valid = true
    · by_cases hr : (getDesc (advanceClock st) (advanceClock st).clockHand).refbit = true
      · rw [allocBufAux_step_ref starting fuel st hv hr] at h
        rcases hrec : allocBufAux starting fuel
            (setDesc (advanceClock st) (advanceClock st).clockHand
              (clearRef (getDesc (advanceClock st) (advanceClock st).clockHand)))
          with _ | ⟨res2, stB, k2⟩
        · rw [hrec] at h; exact absurd h (by simp)
        · rw [hrec] at h
          simp only [Option.some.injEq, Prod.mk.injEq] at h
          obtain ⟨hres, hst, hk⟩ := h
          subst hst
          rcases res2 with e2 | v2
          · have he : e2 = e := by
              injection hres
            subst he
            obtain ⟨c1, c2, c3, c4, c5⟩ := ih _ _ _ _ hrec
            have hcl : (advanceClock st).clockHand < numBufs st :=
              lt_of_valid hv
            refine ⟨c1.trans rfl, c2.trans rfl, c3.trans rfl, ?_, c5⟩
            exact refbitOnly_trans (refbitOnly_setClear rfl hcl) c4
          · exact Except.noConfusion hres
      · rw [Bool.not_eq_true] at hr
        by_cases hp : (getDesc (advanceClock st) (advanceClock st).clockHand).pinCnt = 0
        · rcases hfile : (getDesc (advanceClock st) (advanceClock st).clockHand).file
            with _ | f
          · rw [allocBufAux_succ] at h
            rw [if_pos hv, if_neg (by rw [hr]; exact Bool.false_ne_true),
                if_pos hp, hfile] at h
            simp only [Option.some.injEq, Prod.mk.injEq] at h
            obtain ⟨hres, hst, hk⟩ := h
            subst hst
            have he : BufError.hashNotFound = e := by injection hres
            subst he
            exact ⟨rfl, rfl, rfl, fun i => Or.inl rfl,
              fun hh => BufError.noConfusion hh⟩
          · rcases hpage : (getDesc (advanceClock st) (advanceClock st).clockHand).pageNo
              with _ | p
            · rw [allocBufAux_succ] at h
              rw [if_pos hv, if_neg (by rw [hr]; exact Bool.false_ne_true),
                  if_pos hp, hfile, hpage] at h
              simp only [Option.some.injEq, Prod.mk.injEq] at h
              obtain ⟨hres, hst, hk⟩ := h
              subst hst
              have he : BufError.hashNotFound = e := by injection hres
              subst he
              exact ⟨rfl, rfl, rfl, fun i => Or.inl rfl,
                fun hh => BufError.noConfusion hh⟩
            · rw [allocBufAux_step_victim starting fuel st f p hv hr hp hfile hpage] at h
              by_cases hcont : htContains (advanceClock st).hashTable f p = true
              · rw [if_pos hcont] at h
                simp only [Option.some.injEq, Prod.mk.injEq] at h
                obtain ⟨hres, _⟩ := h
                exact Except.noConfusion hres
              · rw [if_neg hcont] at h
                simp only [Option.some.injEq, Prod.mk.injEq] at h
                obtain ⟨hres, hst, hk⟩ := h
                subst hst
                have he : BufError.hashNotFound = e := by injection hres
                subst he
                exact ⟨rfl, rfl, rfl, fun i => Or.inl rfl,
                  fun hh => BufError.noConfusion hh⟩
        · by_cases hs : starting = (advanceClock st).clockHand
          · rw [allocBufAux_step_throw starting fuel st hv hr hp hs] at h
            simp only [Option.some.injEq, Prod.mk.injEq] at h
            obtain ⟨hres, hst, hk⟩ := h
            subst hst
            have he : BufError.bufferExceeded = e := by injection hres
            subst he
            refine ⟨rfl, rfl, rfl, fun i => Or.inl rfl, fun _ => ?_⟩
            rw [hs]
            exact ⟨rfl, hv, hr, hp⟩
          · rw [allocBufAux_step_skip starting fuel st hv hr hp hs] at h
            rcases hrec : allocBufAux starting fuel (advanceClock st)
              with _ | ⟨res2, stB, k2⟩
            · rw [hrec] at h; exact absurd h (by simp)
            · rw [hrec] at h
              simp only [Option.some.injEq, Prod.mk.injEq] at h
              obtain ⟨hres, hst, hk⟩ := h
              subst hst
              rcases res2 with e2 | v2
              · have he : e2 = e := by injection hres
                subst he
                obtain ⟨c1, c2, c3, c4, c5⟩ := ih _ _ _ _ hrec
                exact ⟨c1.trans rfl, c2.trans rfl, c3.trans rfl,
                  refbitOnly_trans (fun i => Or.inl rfl) c4, c5⟩
              · exact Except.noConfusion hres
    · rw [Bool.not_eq_true] at hv
      rw [allocBufAux_step_invalid starting fuel st hv] at h
      simp only [Option.some.injEq, Prod.mk.injEq] at h
      obtain ⟨hres, _⟩ := h
      exact Except.noConfusion hres

lemma allocBufAux_ok (starting : Nat) :
    ∀ (fuel : Nat) (st st' : BufState) (v k : Nat),
      allocBufAux starting fuel st = some (.ok v, st', k) →
      ∃ stm : BufState,
        stm.bufPool = st.bufPool ∧ stm.events = st.events ∧
        stm.files = st.files ∧ stm.hashTable = st.hashTable ∧
        stm.fid = st.fid ∧ numBufs stm = numBufs st ∧
        refbitOnly st stm ∧
        (0 < numBufs st → stm.clockHand < numBufs st) ∧
        v = (getDesc stm stm.clockHand).frameNo ∧
        ((getDesc stm stm.clockHand).valid = false ∧
            st' = setDesc stm stm.clockHand ((getDesc stm stm.clockHand).Clear)
         ∨ ∃ f p : Nat,
            (getDesc stm stm.clockHand).valid = true ∧
            (getDesc stm stm.clockHand).refbit = false ∧
            (getDesc stm stm.clockHand).pinCnt = 0 ∧
            (getDesc stm stm.clockHand).file = some f ∧
            (getDesc stm stm.clockHand).pageNo = some p ∧
            htContains stm.hashTable f p = true ∧
            st' = victimEvict stm stm.clockHand f p) := by
  intro fuel
  induction fuel with
  | zero =>
    intro st st' v k h
    exact absurd h (by simp [allocBufAux])
  | succ fuel ih =>
    intro st st' v k h
    by_cases hv : (getDesc (advanceClock st) (advanceClock st).clockHand).valid = true
    · by_cases hr : (getDesc (advanceClock st) (advanceClock st).clockHand).refbit = true
      · rw [allocBufAux_step_ref starting fuel st hv hr] at h
        rcases hrec : allocBufAux starting fuel
            (setDesc (advanceClock st) (advanceClock st).clockHand
              (clearRef (getDesc (advanceClock st) (advanceClock st).clockHand)))
          with _ | ⟨res2, stB, k2⟩
        · rw [hrec] at h; exact absurd h (by simp)
        · rw [hrec] at h
          simp only [Option.some.injEq, Prod.mk.injEq] at h
          obtain ⟨hres, hst, hk⟩ := h
          subst hst
          rcases res2 with e2 | v2
          · exact Except.noConfusion hres
          · have hvv : v2 = v := by injection hres
            subst hvv
            obtain ⟨stm, c1, c2, c3, c4, c5, c6, c7, c8, c9, c10⟩ :=
              ih _ _ _ _ hrec
            have hcl : (advanceClock st).clockHand < numBufs st :=
              lt_of_valid hv
            refine ⟨stm, c1.trans rfl, c2.trans rfl, c3.trans rfl,
              c4.trans rfl, c5.trans rfl,
              c6.trans (by rw [numBufs_setDesc]; rfl),
              refbitOnly_trans (refbitOnly_setClear rfl hcl) c7,
              ?_, c9, c10⟩
            intro h0
            have h8 := c8 (by rw [numBufs_setDesc]; exact h0)
            rwa [numBufs_setDesc] at h8
      · rw [Bool.not_eq_true] at hr
        by_cases hp : (getDesc (advanceClock st) (advanceClock st).clockHand).pinCnt = 0
        · rcases hfile : (getDesc (advanceClock st) (advanceClock st).clockHand).file
            with _ | f
          · rw [allocBufAux_succ] at h
            rw [if_pos hv, if_neg (by rw [hr]; exact Bool.false_ne_true),
                if_pos hp, hfile] at h
            simp only [Option.some.injEq, Prod.mk.injEq] at h
            obtain ⟨hres, _⟩ := h
            exact Except.noConfusion hres
          · rcases hpage : (getDesc (advanceClock st) (advanceClock st).clockHand).pageNo
              with _ | p
            · rw [allocBufAux_succ] at h
              rw [if_pos hv, if_neg (by rw [hr]; exact Bool.false_ne_true),
                  if_pos hp, hfile, hpage] at h
              simp only [Option.some.injEq, Prod.mk.injEq] at h
              obtain ⟨hres, _⟩ := h
              exact Except.noConfusion hres
            · rw [allocBufAux_step_victim starting fuel st f p hv hr hp hfile hpage] at h
              by_cases hcont : htContains (advanceClock st).hashTable f p = true
              · rw [if_pos hcont] at h
                simp only [Option.some.injEq, Prod.mk.injEq] at h
                obtain ⟨hres, hst, hk⟩ := h
                subst hst
                have hvv : (getDesc (advanceClock st) (advanceClock st).clockHand).frameNo = v := by
                  injection hres
                refine ⟨advanceClock st, rfl, rfl, rfl, rfl, rfl, rfl,
                  fun i => Or.inl rfl, ?_, hvv.symm, ?_⟩
                · intro h0
                  exact Nat.mod_lt _ h0
                · exact Or.inr ⟨f, p, hv, hr, hp, hfile, hpage, hcont, rfl⟩
              · rw [if_neg hcont] at h
                simp only [Option.some.injEq, Prod.mk.injEq] at h
                obtain ⟨hres, _⟩ := h
                exact Except.noConfusion hres
        · by_cases hs : starting = (advanceClock st).clockHand
          · rw [allocBufAux_step_throw starting fuel st hv hr hp hs] at h
            simp only [Option.some.injEq, Prod.mk.injEq] at h
            obtain ⟨hres, _⟩ := h
            exact Except.noConfusion hres
          · rw [allocBufAux_step_skip starting fuel st hv hr hp hs] at h
            rcases hrec : allocBufAux starting fuel (advanceClock st)
              with _ | ⟨res2, stB, k2⟩
            · rw [hrec] at h; exact absurd h (by simp)
            · rw [hrec] at h
              simp only [Option.some.injEq, Prod.mk.injEq] at h
              obtain ⟨hres, hst, hk⟩ := h
              subst hst
              rcases res2 with e2 | v2
              · exact Except.noConfusion hres
              · have hvv : v2 = v := by injection hres
                subst hvv
                obtain ⟨stm, c1, c2, c3, c4, c5, c6, c7, c8, c9, c10⟩ :=
                  ih _ _ _ _ hrec
                exact ⟨stm, c1.trans rfl, c2.trans rfl, c3.trans rfl,
                  c4.trans rfl, c5.trans rfl, c6.trans rfl,
                  refbitOnly_trans (fun i => Or.inl rfl) c7, c8, c9, c10⟩
    · rw [Bool.not_eq_true] at hv
      rw [allocBufAux_step_invalid starting fuel st hv] at h
      simp only [Option.some.injEq, Prod.mk.injEq] at h
      obtain ⟨hres, hst, hk⟩ := h
      subst hst
      have hvv : (getDesc (advanceClock st) (advanceClock st).clockHand).frameNo = v := by
        injection hres
      refine ⟨advanceClock st, rfl, rfl, rfl, rfl, rfl, rfl,
        fun i => Or.inl rfl, ?_, hvv.symm, Or.inl ⟨hv, rfl⟩⟩
      intro h0
      exact Nat.mod_lt _ h0


/- ### The invariant under the clock sweep -/

lemma descKey_congr {d d' : BufDesc} (h1 : d'.file = d.file)
    (h2 : d'.pageNo = d.pageNo) : descKey d' = descKey d := by
  unfold descKey; rw [h1, h2]

lemma Inv_pos {st : BufState} (h : Inv st) : 0 < numBufs st :=
  Nat.lt_of_le_of_lt (Nat.zero_le _) h.2.1

lemma Inv_of_refbitOnly {st st' : BufState}
    (h : Inv st) (hro : refbitOnly st st')
    (hpool : st'.bufPool = st.bufPool) (hht : st'.hashTable = st.hashTable)
    (hlen : numBufs st' = numBufs st) (hck : st'.clockHand < numBufs st') :
    Inv st' := by
  obtain ⟨hpoolL, hclock, hframe, hclean, hnodup, hentries, hcomplete⟩ := h
  have hlen' : st'.bufDescTable.length = st.bufDescTable.length := hlen
  refine ⟨?_, hck, ?_, ?_, ?_, ?_, ?_⟩
  · rw [hpool, hpoolL, hlen']
  · intro i hi
    rw [hlen] at hi
    rw [(refbitOnly_fields hro i).2.2.2.2.2]
    exact hframe i hi
  · intro i hi hval
    rw [hlen] at hi
    have hval0 : (getDesc st i).valid = false := by
      rw [← (refbitOnly_fields hro i).1]; exact hval
    rcases hro i with h' | h'
    · rw [h']; exact hclean i hi hval0
    · rw [h', hclean i hi hval0, clearRef_mkBufDesc]
  · rw [hht]; exact hnodup
  · intro e he
    rw [hht] at he
    obtain ⟨h1, h2, h3, h4⟩ := hentries e he
    obtain ⟨f1, f2, f3, _, _, _⟩ := refbitOnly_fields hro e.2
    exact ⟨by rw [hlen]; exact h1, by rw [f1]; exact h2,
      by rw [f2]; exact h3, by rw [f3]; exact h4⟩
  · intro i hi hval
    rw [hlen] at hi
    obtain ⟨f1, f2, f3, _, _, _⟩ := refbitOnly_fields hro i
    have hval0 : (getDesc st i).valid = true := by rw [← f1]; exact hval
    obtain ⟨h1, h2, h3⟩ := hcomplete i hi hval0
    refine ⟨by rw [f2]; exact h1, by rw [f3]; exact h2, ?_⟩
    rw [hht, descKey_congr f2 f3]
    exact h3

lemma Inv_unique {st : BufState} (h : Inv st) {i j fx px : Nat}
    (hi : i < numBufs st) (hj : j < numBufs st)
    (hvi : (getDesc st i).valid = true) (hvj : (getDesc st j).valid = true)
    (hfi : (getDesc st i).file = some fx) (hfj : (getDesc st j).file = some fx)
    (hpi : (getDesc st i).pageNo = some px)
    (hpj : (getDesc st j).pageNo = some px) : i = j := by
  have hcp := h
  obtain ⟨_, _, _, _, hnodup, hentries, hcomplete⟩ := hcp
  obtain ⟨_, _, hmi⟩ := hcomplete i hi hvi
  obtain ⟨_, _, hmj⟩ := hcomplete j hj hvj
  have hkeyi : descKey (getDesc st i) = (fx, px) := by
    unfold descKey; rw [hfi, hpi]; rfl
  have hkeyj : descKey (getDesc st j) = (fx, px) := by
    unfold descKey; rw [hfj, hpj]; rfl
  rw [hkeyi] at hmi
  rw [hkeyj] at hmj
  exact congrArg Prod.snd (eq_of_mem_nodup_keys hnodup hmi hmj rfl)

lemma Inv_lookup_iff {st : BufState} (h : Inv st) (fx px i : Nat) :
    htLookup st.hashTable fx px = some i ↔
      i < numBufs st ∧ (getDesc st i).valid = true ∧
      (getDesc st i).file = some fx ∧ (getDesc st i).pageNo = some px := by
  have hcp := h
  obtain ⟨_, _, _, _, hnodup, hentries, hcomplete⟩ := hcp
  constructor
  · intro hl
    have hmem := htLookup_mem hl
    have he := hentries _ hmem
    exact ⟨he.1, he.2.1, he.2.2.1, he.2.2.2⟩
  · rintro ⟨hi, hv, hf, hp⟩
    obtain ⟨_, _, hmem⟩ := hcomplete i hi hv
    have hkey : descKey (getDesc st i) = (fx, px) := by
      unfold descKey; rw [hf, hp]; rfl
    rw [hkey] at hmem
    exact htLookup_of_mem_nodup hmem hnodup

lemma Inv_victimEvict {stm : BufState} {c f p : Nat}
    (h : Inv stm) (hc : c < numBufs stm)
    (hv : (getDesc stm c).valid = true)
    (hf : (getDesc stm c).file = some f)
    (hp : (getDesc stm c).pageNo = some p) :
    Inv (victimEvict stm c f p) ∧
    (∀ e ∈ (victimEvict stm c f p).hashTable,
       e ∈ stm.hashTable ∧ e.2 ≠ c) ∧
    getDesc (victimEvict stm c f p) c = mkBufDesc c := by
  have hcp := h
  obtain ⟨hpoolL, hclock, hframe, hclean, hnodup, hentries, hcomplete⟩ := hcp
  have hself : getDesc (victimEvict stm c f p) c = mkBufDesc c := by
    rw [getDesc_victimEvict_self stm f p hc, Clear_eq_mkBufDesc, hframe c hc]
  have hne : ∀ j, c ≠ j →
      getDesc (victimEvict stm c f p) j = getDesc stm j :=
    fun j hj => getDesc_victimEvict_ne stm f p hj
  have hht := victimEvict_hashTable stm c f p
  have hlen := victimEvict_numBufs stm c f p
  have hfresh : ∀ e ∈ (victimEvict stm c f p).hashTable,
      e ∈ stm.hashTable ∧ e.2 ≠ c := by
    intro e he
    rw [hht] at he
    obtain ⟨hmem, hkey⟩ := mem_htRemove.1 he
    refine ⟨hmem, ?_⟩
    intro hec
    obtain ⟨_, _, hef, hep⟩ := hentries e hmem
    rw [hec] at hef hep
    have h1 : e.1.1 = f := by
      have := hef.symm.trans hf
      injection this
    have h2 : e.1.2 = p := by
      have := hep.symm.trans hp
      injection this
    exact hkey (Prod.ext h1 h2)
  refine ⟨⟨?_, ?_, ?_, ?_, ?_, ?_, ?_⟩, hfresh, hself⟩
  · rw [victimEvict_bufPool]
    have : numBufs (victimEvict stm c f p) = numBufs stm := hlen
    unfold numBufs at this
    rw [hpoolL, ← this]
  · rw [victimEvict_clockHand, hlen]
    exact hclock
  · intro i hi
    rw [hlen] at hi
    by_cases hci : c = i
    · subst hci; rw [hself]; rfl
    · rw [hne i hci]; exact hframe i hi
  · intro i hi hval
    rw [hlen] at hi
    by_cases hci : c = i
    · subst hci; exact hself
    · rw [hne i hci] at hval ⊢
      exact hclean i hi hval
  · rw [hht]
    exact htRemove_keys_nodup hnodup
  · intro e he
    obtain ⟨hmem, hec⟩ := hfresh e he
    obtain ⟨h1, h2, h3, h4⟩ := hentries e hmem
    have hdesc : getDesc (victimEvict stm c f p) e.2 = getDesc stm e.2 :=
      hne e.2 (fun hcc => hec hcc.symm)
    exact ⟨by rw [hlen]; exact h1, by rw [hdesc]; exact h2,
      by rw [hdesc]; exact h3, by rw [hdesc]; exact h4⟩
  · intro i hi hval
    rw [hlen] at hi
    by_cases hci : c = i
    · subst hci
      rw [hself] at hval
      exact absurd hval (by simp [mkBufDesc])
    · rw [hne i hci] at hval ⊢
      obtain ⟨h1, h2, h3⟩ := hcomplete i hi hval
      refine ⟨h1, h2, ?_⟩
      rw [hht, mem_htRemove]
      refine ⟨h3, ?_⟩
      intro hkey
      obtain ⟨a, ha⟩ := Option.isSome_iff_exists.1 h1
      obtain ⟨b, hb⟩ := Option.isSome_iff_exists.1 h2
      have hkey' : descKey (getDesc stm i) = (a, b) := by
        unfold descKey; rw [ha, hb]; rfl
      rw [hkey'] at hkey
      injection hkey with haf hbp
      have heq : i = c :=
        Inv_unique h hi hc hval hv (by rw [ha, haf]) hf
          (by rw [hb, hbp]) hp
      exact hci heq.symm

lemma Inv_setClear_invalid {stm : BufState} {c : Nat}
    (h : Inv stm) (hc : c < numBufs stm)
    (hv : (getDesc stm c).valid = false) :
    Inv (setDesc stm c ((getDesc stm c).Clear)) ∧
    (∀ e ∈ (setDesc stm c ((getDesc stm c).Clear)).hashTable,
       e ∈ stm.hashTable ∧ e.2 ≠ c) ∧
    getDesc (setDesc stm c ((getDesc stm c).Clear)) c = mkBufDesc c := by
  have hcp := h
  obtain ⟨hpoolL, hclock, hframe, hclean, hnodup, hentries, hcomplete⟩ := hcp
  have hmk : getDesc stm c = mkBufDesc c := hclean c hc hv
  have hself : getDesc (setDesc stm c ((getDesc stm c).Clear)) c = mkBufDesc c := by
    rw [getDesc_setDesc_self _ _ hc, Clear_eq_mkBufDesc, hmk]
    rfl
  have hne : ∀ j, c ≠ j →
      getDesc (setDesc stm c ((getDesc stm c).Clear)) j = getDesc stm j :=
    fun j hj => getDesc_setDesc_ne _ _ hj
  have hfresh : ∀ e ∈ (setDesc stm c ((getDesc stm c).Clear)).hashTable,
      e ∈ stm.hashTable ∧ e.2 ≠ c := by
    intro e he
    refine ⟨he, ?_⟩
    intro hec
    obtain ⟨_, h2, _, _⟩ := hentries e he
    rw [hec] at h2
    rw [h2] at hv
    exact Bool.noConfusion hv
  refine ⟨⟨?_, ?_, ?_, ?_, ?_, ?_, ?_⟩, hfresh, hself⟩
  · simp [setDesc, hpoolL]
  · rw [numBufs_setDesc]
    exact hclock
  · intro i hi
    rw [numBufs_setDesc] at hi
    by_cases hci : c = i
    · subst hci; rw [hself]; rfl
    · rw [hne i hci]; exact hframe i hi
  · intro i hi hval
    rw [numBufs_setDesc] at hi
    by_cases hci : c = i
    · subst hci; exact hself
    · rw [hne i hci] at hval ⊢
      exact hclean i hi hval
  · exact hnodup
  · intro e he
    obtain ⟨hmem, hec⟩ := hfresh e he
    obtain ⟨h1, h2, h3, h4⟩ := hentries e hmem
    have hdesc : getDesc (setDesc stm c ((getDesc stm c).Clear)) e.2 =
        getDesc stm e.2 := hne e.2 (fun hcc => hec hcc.symm)
    exact ⟨by rw [numBufs_setDesc]; exact h1, by rw [hdesc]; exact h2,
      by rw [hdesc]; exact h3, by rw [hdesc]; exact h4⟩
  · intro i hi hval
    rw [numBufs_setDesc] at hi
    by_cases hci : c = i
    · subst hci
      rw [hself] at hval
      exact absurd hval (by simp [mkBufDesc])
    · rw [hne i hci] at hval ⊢
      obtain ⟨h1, h2, h3⟩ := hcomplete i hi hval
      exact ⟨h1, h2, h3⟩

lemma allocBuf_unfold (st : BufState) :
    allocBuf st = (allocBufAux st.clockHand (2 * numBufs st + 2) st).map
      (fun r => (r.1, r.2.1)) := rfl

lemma allocBuf_error_spec {st st1 : BufState} {e : BufError}
    (hA : allocBuf st = some (.error e, st1)) :
    st1.hashTable = st.hashTable ∧ st1.events = st.events ∧
    st1.files = st.files ∧ st1.fid = st.fid ∧ st1.bufPool = st.bufPool ∧
    numBufs st1 = numBufs st ∧ refbitOnly st st1 ∧
    (0 < numBufs st → st1.clockHand < numBufs st) ∧
    (e = .bufferExceeded → st1.clockHand = st.clockHand ∧
      (getDesc st1 st.clockHand).valid = true ∧
      (getDesc st1 st.clockHand).refbit = false ∧
      (getDesc st1 st.clockHand).pinCnt ≠ 0) := by
  rw [allocBuf_unfold] at hA
  rcases haux : allocBufAux st.clockHand (2 * numBufs st + 2) st
    with _ | ⟨res, stx, k⟩
  · rw [haux] at hA; exact absurd hA (by simp)
  · rw [haux] at hA
    simp only [Option.map_some', Option.some.injEq, Prod.mk.injEq] at hA
    obtain ⟨hres, hst⟩ := hA
    subst hst
    rcases res with e2 | v2
    · have he : e2 = e := by injection hres
      subst he
      obtain ⟨c1, c2, c3, c4, c5⟩ := allocBufAux_error st.clockHand _ _ _ _ _ haux
      obtain ⟨d1, d2, d3, d4, d5⟩ := allocBufAux_common st.clockHand _ _ _ _ _ haux
      refine ⟨c1, c2, c3, d2, d3, d1, c4, ?_, c5⟩
      intro h0
      rw [d5]
      exact Nat.mod_lt _ h0
    · exact Except.noConfusion hres

lemma allocBuf_ok_spec {st st1 : BufState} {v : Nat}
    (h : Inv st) (hA : allocBuf st = some (.ok v, st1)) :
    Inv st1 ∧ v < numBufs st ∧ numBufs st1 = numBufs st ∧
    getDesc st1 v = mkBufDesc v ∧
    (∀ e ∈ st1.hashTable, e ∈ st.hashTable ∧ e.2 ≠ v) ∧
    st1.bufPool = st.bufPool ∧ st1.fid = st.fid ∧
    st1.clockHand < numBufs st1 := by
  rw [allocBuf_unfold] at hA
  rcases haux : allocBufAux st.clockHand (2 * numBufs st + 2) st
    with _ | ⟨res, stx, k⟩
  · rw [haux] at hA; exact absurd hA (by simp)
  · rw [haux] at hA
    simp only [Option.map_some', Option.some.injEq, Prod.mk.injEq] at hA
    obtain ⟨hres, hst⟩ := hA
    subst hst
    rcases res with e2 | v2
    · exact Except.noConfusion hres
    · have hv2 : v2 = v := by injection hres
      subst hv2
      obtain ⟨stm, c1, c2, c3, c4, c5, c6, c7, c8, c9, c10⟩ :=
        allocBufAux_ok st.clockHand _ _ _ _ _ haux
      have h0 : 0 < numBufs st := Inv_pos h
      have hcm : stm.clockHand < numBufs st := c8 h0
      have hcm' : stm.clockHand < numBufs stm := by rw [c6]; exact hcm
      have hInvM : Inv stm := Inv_of_refbitOnly h c7 c1 c4 c6 hcm'
      have hvc : v2 = stm.clockHand := by
        rw [c9]
        exact hInvM.2.2.1 stm.clockHand hcm'
      rcases c10 with ⟨hval, hst'⟩ |
        ⟨f, p, hval, href, hpin, hfile, hpage, hcont, hst'⟩
      · subst hst'
        obtain ⟨I1, I2, I3⟩ := Inv_setClear_invalid hInvM hcm' hval
        rw [hvc]
        refine ⟨I1, hcm, ?_, I3, ?_, c1, c5, ?_⟩
        · rw [numBufs_setDesc, c6]
        · intro e he
          obtain ⟨he1, he2⟩ := I2 e he
          rw [c4] at he1
          exact ⟨he1, he2⟩
        · rw [numBufs_setDesc]
          exact hcm'
      · subst hst'
        obtain ⟨I1, I2, I3⟩ := Inv_victimEvict hInvM hcm' hval hfile hpage
        rw [hvc]
        refine ⟨I1, hcm, ?_, I3, ?_, ?_, ?_, ?_⟩
        · rw [victimEvict_numBufs, c6]
        · intro e he
          obtain ⟨he1, he2⟩ := I2 e he
          rw [c4] at he1
          exact ⟨he1, he2⟩
        · rw [victimEvict_bufPool]
          exact c1
        · rw [victimEvict_fid]
          exact c5
        · rw [victimEvict_clockHand, victimEvict_numBufs]
          exact hcm'

lemma mod_cycle {s k n : Nat} (hs : s < n) (hk : 1 ≤ k)
    (h : (s + k) % n = s) : n ∣ k ∧ n ≤ k := by
  have hn : 0 < n := Nat.lt_of_le_of_lt (Nat.zero_le _) hs
  have ht : k % n < n := Nat.mod_lt _ hn
  rw [Nat.add_mod, Nat.mod_eq_of_lt hs] at h
  by_cases hlt : s + k % n < n
  · rw [Nat.mod_eq_of_lt hlt] at h
    have hz : k % n = 0 := by omega
    have hd : n ∣ k := Nat.dvd_of_mod_eq_zero hz
    exact ⟨hd, Nat.le_of_dvd (Nat.lt_of_lt_of_le Nat.zero_lt_one hk) hd⟩
  · have hge : n ≤ s + k % n := Nat.le_of_not_lt hlt
    have hsub : (s + k % n) % n = s + k % n - n := by
      rw [Nat.mod_eq_sub_mod hge, Nat.mod_eq_of_lt (by omega)]
    rw [hsub] at h
    exfalso
    omega

/- ### Generic invariant preservation for descriptor updates -/

lemma Inv_setKeep {st : BufState} {i : Nat} {d : BufDesc}
    (h : Inv st) (hi : i < numBufs st)
    (hval : d.valid = (getDesc st i).valid)
    (hfile : d.file = (getDesc st i).file)
    (hpage : d.pageNo = (getDesc st i).pageNo)
    (hframe : d.frameNo = (getDesc st i).frameNo)
    (hclean : d.valid = false → d = mkBufDesc i) :
    Inv (setDesc st i d) := by
  have hcp := h
  obtain ⟨hpoolL, hclock, hframe0, hclean0, hnodup, hentries, hcomplete⟩ := hcp
  have hself : getDesc (setDesc st i d) i = d := getDesc_setDesc_self _ _ hi
  have hne : ∀ j, i ≠ j → getDesc (setDesc st i d) j = getDesc st j :=
    fun j hj => getDesc_setDesc_ne _ _ hj
  refine ⟨?_, ?_, ?_, ?_, hnodup, ?_, ?_⟩
  · simp [setDesc, hpoolL]
  · rw [numBufs_setDesc]
    exact hclock
  · intro j hj
    rw [numBufs_setDesc] at hj
    by_cases hij : i = j
    · subst hij
      rw [hself, hframe]
      exact hframe0 i hj
    · rw [hne j hij]
      exact hframe0 j hj
  · intro j hj hv
    rw [numBufs_setDesc] at hj
    by_cases hij : i = j
    · subst hij
      rw [hself] at hv ⊢
      exact hclean hv
    · rw [hne j hij] at hv ⊢
      exact hclean0 j hj hv
  · intro e he
    obtain ⟨h1, h2, h3, h4⟩ := hentries e he
    by_cases hie : i = e.2
    · subst hie
      refine ⟨by rw [numBufs_setDesc]; exact h1, ?_, ?_, ?_⟩
      · rw [hself, hval]; exact h2
      · rw [hself, hfile]; exact h3
      · rw [hself, hpage]; exact h4
    · rw [← hne e.2 hie] at h2 h3 h4
      exact ⟨by rw [numBufs_setDesc]; exact h1, h2, h3, h4⟩
  · intro j hj hv
    rw [numBufs_setDesc] at hj
    by_cases hij : i = j
    · subst hij
      rw [hself] at hv ⊢
      rw [hval] at hv
      obtain ⟨h1, h2, h3⟩ := hcomplete i hj hv
      exact ⟨by rw [hfile]; exact h1, by rw [hpage]; exact h2,
        by rw [descKey_congr hfile hpage]; exact h3⟩
    · rw [hne j hij] at hv ⊢
      exact hcomplete j hj hv

lemma Inv_removeClear {st1 : BufState} {i f p : Nat}
    (h : Inv st1) (hi : i < numBufs st1)
    (hval : (getDesc st1 i).valid = true)
    (hfile : (getDesc st1 i).file = some f)
    (hpage : (getDesc st1 i).pageNo = some p) :
    Inv (setDesc { st1 with hashTable := htRemove st1.hashTable f p } i
          ((getDesc st1 i).Clear)) ∧
    (∀ e ∈ (setDesc { st1 with hashTable := htRemove st1.hashTable f p } i
          ((getDesc st1 i).Clear)).hashTable,
       e ∈ st1.hashTable ∧ e.2 ≠ i) ∧
    getDesc (setDesc { st1 with hashTable := htRemove st1.hashTable f p } i
          ((getDesc st1 i).Clear)) i = mkBufDesc i := by
  have hcp := h
  obtain ⟨hpoolL, hclock, hframe, hclean, hnodup, hentries, hcomplete⟩ := hcp
  have hi' : i < numBufs
      ({ st1 with hashTable := htRemove st1.hashTable f p } : BufState) := hi
  have hself : getDesc (setDesc { st1 with hashTable := htRemove st1.hashTable f p }
      i ((getDesc st1 i).Clear)) i = mkBufDesc i := by
    rw [getDesc_setDesc_self _ _ hi', Clear_eq_mkBufDesc, hframe i hi]
  have hne : ∀ j, i ≠ j →
      getDesc (setDesc { st1 with hashTable := htRemove st1.hashTable f p }
        i ((getDesc st1 i).Clear)) j = getDesc st1 j :=
    fun j hj => getDesc_setDesc_ne _ _ hj
  have hfresh : ∀ e ∈ (setDesc { st1 with hashTable := htRemove st1.hashTable f p }
      i ((getDesc st1 i).Clear)).hashTable, e ∈ st1.hashTable ∧ e.2 ≠ i := by
    intro e he
    obtain ⟨hmem, hkey⟩ := mem_htRemove.1 he
    refine ⟨hmem, ?_⟩
    intro hei
    obtain ⟨_, _, hef, hep⟩ := hentries e hmem
    rw [hei] at hef hep
    have h1 : e.1.1 = f := by
      have := hef.symm.trans hfile
      injection this
    have h2 : e.1.2 = p := by
      have := hep.symm.trans hpage
      injection this
    exact hkey (Prod.ext h1 h2)
  refine ⟨⟨?_, ?_, ?_, ?_, ?_, ?_, ?_⟩, hfresh, hself⟩
  · simp [setDesc, hpoolL]
  · rw [numBufs_setDesc]
    exact hclock
  · intro j hj
    rw [numBufs_setDesc] at hj
    by_cases hij : i = j
    · subst hij; rw [hself]; rfl
    · rw [hne j hij]; exact hframe j hj
  · intro j hj hv
    rw [numBufs_setDesc] at hj
    by_cases hij : i = j
    · subst hij; exact hself
    · rw [hne j hij] at hv ⊢
      exact hclean j hj hv
  · exact htRemove_keys_nodup hnodup
  · intro e he
    obtain ⟨hmem, hei⟩ := hfresh e he
    obtain ⟨h1, h2, h3, h4⟩ := hentries e hmem
    have hdesc := hne e.2 (fun hcc => hei hcc.symm)
    exact ⟨by rw [numBufs_setDesc]; exact h1, by rw [hdesc]; exact h2,
      by rw [hdesc]; exact h3, by rw [hdesc]; exact h4⟩
  · intro j hj hv
    rw [numBufs_setDesc] at hj
    by_cases hij : i = j
    · subst hij
      rw [hself] at hv
      exact absurd hv (by simp [mkBufDesc])
    · rw [hne j hij] at hv ⊢
      obtain ⟨h1, h2, h3⟩ := hcomplete j hj hv
      refine ⟨h1, h2, ?_⟩
      show _ ∈ htRemove st1.hashTable f p
      rw [mem_htRemove]
      refine ⟨h3, ?_⟩
      intro hkey
      obtain ⟨a, ha⟩ := Option.isSome_iff_exists.1 h1
      obtain ⟨b, hb⟩ := Option.isSome_iff_exists.1 h2
      have hkey' : descKey (getDesc st1 j) = (a, b) := by
        unfold descKey; rw [ha, hb]; rfl
      rw [hkey'] at hkey
      injection hkey with haf hbp
      have heq : j = i :=
        Inv_unique h hj hi hv hval (by rw [ha, haf]) hfile
          (by rw [hb, hbp]) hpage
      exact hij heq.symm

lemma Inv_install {st1 st' : BufState} {v f p : Nat}
    (h1 : Inv st1) (hv : v < numBufs st1)
    (hmk : getDesc st1 v = mkBufDesc v)
    (hfreshK : ∀ e ∈ st1.hashTable, e.1 ≠ (f, p))
    (hfreshV : ∀ e ∈ st1.hashTable, e.2 ≠ v)
    (hdesc : st'.bufDescTable =
      st1.bufDescTable.set v ((getDesc st1 v).Set f p))
    (hpool : st'.bufPool.length = st1.bufPool.length)
    (hht : st'.hashTable = htInsert st1.hashTable f p v)
    (hclock : st'.clockHand = st1.clockHand) :
    Inv st' := by
  have hcp := h1
  obtain ⟨hpoolL, hclock1, hframe, hclean, hnodup, hentries, hcomplete⟩ := hcp
  have hlen : numBufs st' = numBufs st1 := by
    unfold numBufs
    rw [hdesc, List.length_set]
  have hself : getDesc st' v = (getDesc st1 v).Set f p := by
    unfold getDesc
    rw [hdesc, List.getD_eq_getElem?_getD, List.getElem?_set_self hv,
        Option.getD_some]
    rfl
  have hne : ∀ j, v ≠ j → getDesc st' j = getDesc st1 j := by
    intro j hj
    unfold getDesc
    rw [hdesc, List.getD_eq_getElem?_getD, List.getElem?_set_ne hj,
        ← List.getD_eq_getElem?_getD]
  refine ⟨?_, ?_, ?_, ?_, ?_, ?_, ?_⟩
  · rw [hpool, hpoolL]
    exact hlen.symm
  · rw [hclock, hlen]
    exact hclock1
  · intro j hj
    rw [hlen] at hj
    by_cases hij : v = j
    · subst hij
      rw [hself, hmk]
      rfl
    · rw [hne j hij]
      exact hframe j hj
  · intro j hj hval
    rw [hlen] at hj
    by_cases hij : v = j
    · subst hij
      rw [hself] at hval
      exact absurd hval (by simp [BufDesc.Set])
    · rw [hne j hij] at hval ⊢
      exact hclean j hj hval
  · rw [hht]
    unfold htInsert
    rw [List.map_cons, List.nodup_cons]
    refine ⟨?_, hnodup⟩
    intro hmem
    obtain ⟨e, hem, hek⟩ := List.mem_map.1 hmem
    exact hfreshK e hem hek
  · intro e he
    rw [hht] at he
    rcases List.mem_cons.1 he with hh | ht
    · subst hh
      refine ⟨by rw [hlen]; exact hv, ?_, ?_, ?_⟩
      · rw [hself]; rfl
      · rw [hself]; rfl
      · rw [hself]; rfl
    · obtain ⟨h1, h2, h3, h4⟩ := hentries e ht
      have hdesc2 := hne e.2 (fun hcc => hfreshV e ht hcc.symm)
      exact ⟨by rw [hlen]; exact h1, by rw [hdesc2]; exact h2,
        by rw [hdesc2]; exact h3, by rw [hdesc2]; exact h4⟩
  · intro j hj hval
    rw [hlen] at hj
    by_cases hij : v = j
    · subst hij
      rw [hself]
      refine ⟨rfl, rfl, ?_⟩
      rw [hht]
      have : descKey ((getDesc st1 v).Set f p) = (f, p) := rfl
      rw [this]
      exact List.mem_cons_self _ _
    · rw [hne j hij] at hval ⊢
      obtain ⟨h1, h2, h3⟩ := hcomplete j hj hval
      refine ⟨h1, h2, ?_⟩
      rw [hht]
      exact List.mem_cons_of_mem _ h3

/- ### Behavior of readPage and unPinPage -/

lemma readPage_hit {st : BufState} {f p i : Nat}
    (hl : htLookup st.hashTable f p = some i) :
    readPage st f p = some (.ok i,
      setDesc { st with fid := i } i
        { getDesc st i with
            refbit := true, pinCnt := (getDesc st i).pinCnt + 1 }) := by
  unfold readPage
  rw [hl]
  rfl

lemma readPage_miss_error {st st1 : BufState} {f p : Nat} {e : BufError}
    (hl : htLookup st.hashTable f p = none)
    (hA : allocBuf st = some (.error e, st1)) :
    readPage st f p = some (.error e, st1) := by
  unfold readPage
  rw [hl, hA]

lemma readPage_miss_noalloc {st : BufState} {f p : Nat}
    (hl : htLookup st.hashTable f p = none)
    (hA : allocBuf st = none) :
    readPage st f p = none := by
  unfold readPage
  rw [hl, hA]

lemma readPage_miss_ok_unfold {st st1 : BufState} {f p v : Nat}
    (hl : htLookup st.hashTable f p = none)
    (hA : allocBuf st = some (.ok v, st1)) :
    readPage st f p =
      (match fileReadPage { st1 with fid := v } f p with
       | none => some (.error .invalidPage, { st1 with fid := v })
       | some (pg, st3) =>
         if htContains ({ st3 with bufPool := st3.bufPool.set v pg } : BufState).hashTable f p then
           some (.error .hashAlreadyPresent,
             { st3 with bufPool := st3.bufPool.set v pg })
         else
           some (.ok v,
             setDesc { st3 with
                         bufPool := st3.bufPool.set v pg,
                         hashTable := htInsert ({ st3 with bufPool := st3.bufPool.set v pg } : BufState).hashTable f p v } v
               ((getDesc ({ st3 with
                              bufPool := st3.bufPool.set v pg,
                              hashTable := htInsert ({ st3 with bufPool := st3.bufPool.set v pg } : BufState).hashTable f p v } : BufState) v).Set f p))) := by
  unfold readPage
  rw [hl, hA]

lemma readPage_miss_diskfail {st st1 : BufState} {f p v : Nat}
    (hl : htLookup st.hashTable f p = none)
    (hA : allocBuf st = some (.ok v, st1))
    (hR : fsRead (getFileD st1.files f) p = none) :
    readPage st f p = some (.error .invalidPage, { st1 with fid := v }) := by
  rw [readPage_miss_ok_unfold hl hA]
  have hfr : fileReadPage { st1 with fid := v } f p = none := by
    unfold fileReadPage
    rw [show ({ st1 with fid := v } : BufState).files = st1.files from rfl, hR]
  rw [hfr]

lemma unPinPage_notfound {st : BufState} {f p : Nat} {md : Bool}
    (hl : htLookup st.hashTable f p = none) :
    unPinPage st f p md = (.ok (), st) := by
  unfold unPinPage
  rw [hl]

lemma unPinPage_found_unfold {st : BufState} {f p i : Nat} {md : Bool}
    (hl : htLookup st.hashTable f p = some i) :
    unPinPage st f p md =
      (if (getDesc st i).pinCnt = 0 then
        (.error .pageNotPinned, { st with fid := i })
       else
        (.ok (), setDesc { st with fid := i } i
          (if md then
            { { getDesc st i with pinCnt := (getDesc st i).pinCnt - 1 } with
              dirty := true }
           else { getDesc st i with pinCnt := (getDesc st i).pinCnt - 1 }))) := by
  unfold unPinPage
  rw [hl]
  rfl

lemma unPinPage_zero {st : BufState} {f p i : Nat} {md : Bool}
    (hl : htLookup st.hashTable f p = some i)
    (hz : (getDesc st i).pinCnt = 0) :
    unPinPage st f p md = (.error .pageNotPinned, { st with fid := i }) := by
  rw [unPinPage_found_unfold hl, if_pos hz]

lemma unPinPage_pos {st : BufState} {f p i : Nat} {md : Bool}
    (hl : htLookup st.hashTable f p = some i)
    (hz : (getDesc st i).pinCnt ≠ 0) :
    unPinPage st f p md = (.ok (),
      setDesc { st with fid := i } i
        (if md then
          { { getDesc st i with pinCnt := (getDesc st i).pinCnt - 1 } with
            dirty := true }
         else { getDesc st i with pinCnt := (getDesc st i).pinCnt - 1 })) := by
  rw [unPinPage_found_unfold hl, if_neg hz]

lemma Inv_transport {st st' : BufState}
    (h : Inv st)
    (hdesc : st'.bufDescTable = st.bufDescTable)
    (hpool : st'.bufPool.length = st.bufPool.length)
    (hht : st'.hashTable = st.hashTable)
    (hclock : st'.clockHand = st.clockHand) :
    Inv st' := by
  obtain ⟨hpoolL, hclock1, hframe, hclean, hnodup, hentries, hcomplete⟩ := h
  have hlen : numBufs st' = numBufs st := numBufs_congr hdesc
  have hget : ∀ i, getDesc st' i = getDesc st i := getDesc_congr hdesc
  refine ⟨?_, ?_, ?_, ?_, ?_, ?_, ?_⟩
  · rw [hpool, hpoolL]
    exact hlen.symm
  · rw [hclock, hlen]
    exact hclock1
  · intro i hi
    rw [hlen] at hi
    rw [hget]
    exact hframe i hi
  · intro i hi hv
    rw [hlen] at hi
    rw [hget] at hv ⊢
    exact hclean i hi hv
  · rw [hht]
    exact hnodup
  · intro e he
    rw [hht] at he
    obtain ⟨h1, h2, h3, h4⟩ := hentries e he
    exact ⟨by rw [hlen]; exact h1, by rw [hget]; exact h2,
      by rw [hget]; exact h3, by rw [hget]; exact h4⟩
  · intro i hi hv
    rw [hlen] at hi
    rw [hget] at hv ⊢
    obtain ⟨h1, h2, h3⟩ := hcomplete i hi hv
    rw [hht]
    exact ⟨h1, h2, h3⟩

lemma readPage_miss_ok_spec {st st1 : BufState} {f p v dta : Nat}
    (h : Inv st)
    (hl : htLookup st.hashTable f p = none)
    (hA : allocBuf st = some (.ok v, st1))
    (hR : fsRead (getFileD st1.files f) p = some dta) :
    ∃ st4 : BufState,
      readPage st f p = some (.ok v, st4) ∧ Inv st4 ∧ v < numBufs st ∧
      getDesc st4 v = (mkBufDesc v).Set f p ∧
      (∀ j, j ≠ v → getDesc st4 j = getDesc st1 j) ∧
      getPool st4 v = ⟨p, dta⟩ ∧
      htLookup st4.hashTable f p = some v ∧
      st4.events = st1.events ++ [DiskOp.readP f p] ∧
      st4.files = st1.files ∧
      st4.fid = v ∧ st4.clockHand = st1.clockHand ∧
      numBufs st4 = numBufs st := by
  obtain ⟨hInv1, hvlt, hlen1, hmk1, hfresh1, hpool1, hfid1, hclk1⟩ :=
    allocBuf_ok_spec h hA
  have hR' : fsRead (getFileD ({ st1 with fid := v } : BufState).files f) p
      = some dta := hR
  have hfr : fileReadPage { st1 with fid := v } f p =
      some (⟨p, dta⟩,
        { st1 with fid := v, events := st1.events ++ [DiskOp.readP f p] }) := by
    unfold fileReadPage
    rw [hR']
  have hnone1 : htLookup st1.hashTable f p = none := by
    rw [htLookup_eq_none]
    intro e he
    exact htLookup_eq_none.1 hl e (hfresh1 e he).1
  have hcontF : htContains st1.hashTable f p = false := by
    unfold htContains
    rw [hnone1]
    rfl
  have hvpool : v < st1.bufPool.length := by
    rw [hInv1.1]
    show v < numBufs st1
    rw [hlen1]
    exact hvlt
  refine ⟨setDesc
      { st1 with fid := v,
                 events := st1.events ++ [DiskOp.readP f p],
                 bufPool := st1.bufPool.set v ⟨p, dta⟩,
                 hashTable := htInsert st1.hashTable f p v } v
      ((getDesc st1 v).Set f p),
    ?_, ?_, hvlt, ?_, ?_, ?_, ?_, ?_, ?_, ?_, ?_, ?_⟩
  · have hstep : readPage st f p =
        (if htContains st1.hashTable f p = true then
          some (.error .hashAlreadyPresent,
            { st1 with fid := v,
                       events := st1.events ++ [DiskOp.readP f p],
                       bufPool := st1.bufPool.set v ⟨p, dta⟩ })
         else
          some (.ok v, setDesc
            { st1 with fid := v,
                       events := st1.events ++ [DiskOp.readP f p],
                       bufPool := st1.bufPool.set v ⟨p, dta⟩,
                       hashTable := htInsert st1.hashTable f p v } v
            ((getDesc st1 v).Set f p))) := by
      rw [readPage_miss_ok_unfold hl hA, hfr]
      rfl
    rw [hstep, if_neg (show ¬(htContains st1.hashTable f p = true) from by
      rw [hcontF]; exact Bool.false_ne_true)]
  · refine Inv_install hInv1 (by rw [hlen1]; exact hvlt) hmk1
      (fun e he => htLookup_eq_none.1 hl e (hfresh1 e he).1)
      (fun e he => (hfresh1 e he).2) rfl ?_ rfl rfl
    show (st1.bufPool.set v (⟨p, dta⟩ : Page)).length = st1.bufPool.length
    rw [List.length_set]
  · refine (getDesc_setDesc_self _ _ ?_).trans ?_
    · show v < numBufs st1
      rw [hlen1]
      exact hvlt
    · rw [hmk1]
  · intro j hj
    refine (getDesc_setDesc_ne _ _ (fun hh => hj hh.symm)).trans (by rfl)
  · show (st1.bufPool.set v (⟨p, dta⟩ : Page)).getD v ⟨0, 0⟩ = (⟨p, dta⟩ : Page)
    rw [List.getD_eq_getElem?_getD, List.getElem?_set_self hvpool]
    rfl
  · show htLookup (htInsert st1.hashTable f p v) f p = some v
    unfold htLookup htInsert
    rw [List.find?_cons_of_pos _ (by simp)]
    rfl
  · rfl
  · rfl
  · rfl
  · rfl
  · show (st1.bufDescTable.set v _).length = numBufs st
    rw [List.length_set]
    exact hlen1

lemma readPage_inv {st : BufState} {f p : Nat} {r : Except BufError Nat}
    {st' : BufState} (h : Inv st)
    (hA : readPage st f p = some (r, st')) : Inv st' := by
  rcases hl : htLookup st.hashTable f p with _ | i
  · rcases hB : allocBuf st with _ | ⟨res, st1⟩
    · rw [readPage_miss_noalloc hl hB] at hA
      exact absurd hA (by simp)
    · rcases res with e | v
      · rw [readPage_miss_error hl hB] at hA
        simp only [Option.some.injEq, Prod.mk.injEq] at hA
        obtain ⟨_, hst⟩ := hA
        subst hst
        obtain ⟨c1, c2, c3, c4, c5, c6, c7, c8, c9⟩ := allocBuf_error_spec hB
        exact Inv_of_refbitOnly h c7 c5 c1 c6
          (by rw [c6]; exact c8 (Inv_pos h))
      · rcases hfr : fsRead (getFileD st1.files f) p with _ | dta
        · rw [readPage_miss_diskfail hl hB hfr] at hA
          simp only [Option.some.injEq, Prod.mk.injEq] at hA
          obtain ⟨_, hst⟩ := hA
          subst hst
          obtain ⟨hInv1, _, _, _, _, _, _, _⟩ := allocBuf_ok_spec h hB
          exact Inv_transport hInv1 rfl rfl rfl rfl
        · obtain ⟨st4, heq, hInv4, _⟩ := readPage_miss_ok_spec h hl hB hfr
          rw [heq] at hA
          simp only [Option.some.injEq, Prod.mk.injEq] at hA
          obtain ⟨_, hst⟩ := hA
          subst hst
          exact hInv4
  · rw [readPage_hit hl] at hA
    simp only [Option.some.injEq, Prod.mk.injEq] at hA
    obtain ⟨_, hst⟩ := hA
    subst hst
    have hmem := htLookup_mem hl
    have he := h.2.2.2.2.2.1 _ hmem
    obtain ⟨hi0, hval0, _, _⟩ := he
    have hi : i < numBufs st := hi0
    have hval : (getDesc st i).valid = true := hval0
    have hbase : Inv ({ st with fid := i } : BufState) :=
      Inv_transport h rfl rfl rfl rfl
    refine Inv_setKeep hbase hi rfl rfl rfl rfl ?_
    intro hh
    rw [show ({ getDesc st i with
        refbit := true, pinCnt := (getDesc st i).pinCnt + 1 } : BufDesc).valid
        = (getDesc st i).valid from rfl, hval] at hh
    exact absurd hh (by simp)

lemma unpin_update_fields (d : BufDesc) (md : Bool) :
    (if md then { { d with pinCnt := d.pinCnt - 1 } with dirty := true }
     else { d with pinCnt := d.pinCnt - 1 }).valid = d.valid ∧
    (if md then { { d with pinCnt := d.pinCnt - 1 } with dirty := true }
     else { d with pinCnt := d.pinCnt - 1 }).file = d.file ∧
    (if md then { { d with pinCnt := d.pinCnt - 1 } with dirty := true }
     else { d with pinCnt := d.pinCnt - 1 }).pageNo = d.pageNo ∧
    (if md then { { d with pinCnt := d.pinCnt - 1 } with dirty := true }
     else { d with pinCnt := d.pinCnt - 1 }).frameNo = d.frameNo ∧
    (if md then { { d with pinCnt := d.pinCnt - 1 } with dirty := true }
     else { d with pinCnt := d.pinCnt - 1 }).pinCnt = d.pinCnt - 1 ∧
    (if md then { { d with pinCnt := d.pinCnt - 1 } with dirty := true }
     else { d with pinCnt := d.pinCnt - 1 }).refbit = d.refbit ∧
    (if md then { { d with pinCnt := d.pinCnt - 1 } with dirty := true }
     else { d with pinCnt := d.pinCnt - 1 }).dirty = (d.dirty || md) := by
  cases md
  · exact ⟨rfl, rfl, rfl, rfl, rfl, rfl, by simp⟩
  · exact ⟨rfl, rfl, rfl, rfl, rfl, rfl, by simp⟩

lemma unPinPage_inv {st : BufState} {f p : Nat} {md : Bool} (h : Inv st) :
    Inv (unPinPage st f p md).2 := by
  rcases hl : htLookup st.hashTable f p with _ | i
  · rw [unPinPage_notfound hl]
    exact h
  · have hmem := htLookup_mem hl
    obtain ⟨hi0, hval0, _, _⟩ := h.2.2.2.2.2.1 _ hmem
    have hi : i < numBufs st := hi0
    have hval : (getDesc st i).valid = true := hval0
    by_cases hz : (getDesc st i).pinCnt = 0
    · rw [unPinPage_zero hl hz]
      exact Inv_transport h rfl rfl rfl rfl
    · rw [unPinPage_pos hl hz]
      have hbase : Inv ({ st with fid := i } : BufState) :=
        Inv_transport h rfl rfl rfl rfl
      obtain ⟨u1, u2, u3, u4, _, _, _⟩ := unpin_update_fields (getDesc st i) md
      refine Inv_setKeep hbase hi u1 u2 u3 u4 ?_
      intro hh
      rw [u1, hval] at hh
      exact absurd hh (by simp)

lemma allocPage_none {st : BufState} {f : Nat}
    (hA : allocBuf (fileAllocatePage st f).2 = none) :
    allocPage st f = none := by
  simp only [allocPage]
  rw [hA]

lemma allocPage_error {st st1 : BufState} {f : Nat} {e : BufError}
    (hA : allocBuf (fileAllocatePage st f).2 = some (.error e, st1)) :
    allocPage st f = some (.error e, st1) := by
  simp only [allocPage]
  rw [hA]

lemma allocPage_ok_unfold {st st1 : BufState} {f v : Nat}
    (hA : allocBuf (fileAllocatePage st f).2 = some (.ok v, st1)) :
    allocPage st f =
      (if htContains st1.hashTable f
          (getPool (allocMid st1 v (fileAllocatePage st f).1) v).page_number = true then
        some (.error .hashAlreadyPresent, allocMid st1 v (fileAllocatePage st f).1)
       else
        some (.ok ((getPool (allocMid st1 v (fileAllocatePage st f).1) v).page_number, v),
          setDesc { allocMid st1 v (fileAllocatePage st f).1 with
                      hashTable := htInsert st1.hashTable f
                        (getPool (allocMid st1 v (fileAllocatePage st f).1) v).page_number v } v
            ((getDesc st1 v).Set f
              (getPool (allocMid st1 v (fileAllocatePage st f).1) v).page_number))) := by
  simp only [allocPage]
  rw [hA]
  rfl

lemma htLookup_eq_none_of_contains {ht : List ((Nat × Nat) × Nat)} {f p : Nat}
    (h : htContains ht f p = false) : htLookup ht f p = none := by
  unfold htContains at h
  cases hl : htLookup ht f p with
  | none => rfl
  | some i => rw [hl] at h; exact absurd h (by simp)

lemma allocPage_inv {st : BufState} {f : Nat} {r : Except BufError (Nat × Nat)}
    {st' : BufState} (h : Inv st)
    (hA : allocPage st f = some (r, st')) : Inv st' := by
  have h0 : Inv (fileAllocatePage st f).2 := Inv_transport h rfl rfl rfl rfl
  rcases hB : allocBuf (fileAllocatePage st f).2 with _ | ⟨res, st1⟩
  · rw [allocPage_none hB] at hA
    exact absurd hA (by simp)
  · rcases res with e | v
    · rw [allocPage_error hB] at hA
      simp only [Option.some.injEq, Prod.mk.injEq] at hA
      obtain ⟨_, hst⟩ := hA
      subst hst
      obtain ⟨c1, c2, c3, c4, c5, c6, c7, c8, c9⟩ := allocBuf_error_spec hB
      exact Inv_of_refbitOnly h0 c7 c5 c1 c6 (by rw [c6]; exact c8 (Inv_pos h0))
    · obtain ⟨hInv1, hvlt, hlen1, hmk1, hfresh1, hpool1, hfid1, hclk1⟩ :=
        allocBuf_ok_spec h0 hB
      rw [allocPage_ok_unfold hB] at hA
      by_cases hc : htContains st1.hashTable f
          (getPool (allocMid st1 v (fileAllocatePage st f).1) v).page_number = true
      · rw [if_pos hc] at hA
        simp only [Option.some.injEq, Prod.mk.injEq] at hA
        obtain ⟨_, hst⟩ := hA
        subst hst
        refine Inv_transport hInv1 rfl ?_ rfl rfl
        show (st1.bufPool.set v _).length = st1.bufPool.length
        rw [List.length_set]
      · rw [if_neg hc] at hA
        simp only [Option.some.injEq, Prod.mk.injEq] at hA
        obtain ⟨_, hst⟩ := hA
        subst hst
        rw [Bool.not_eq_true] at hc
        have hnone := htLookup_eq_none_of_contains hc
        refine Inv_install hInv1 ?_ hmk1
          (fun e he => htLookup_eq_none.1 hnone e he)
          (fun e he => (hfresh1 e he).2) rfl ?_ rfl rfl
        · show v < numBufs st1
          rw [hlen1]
          exact hvlt
        · show (st1.bufPool.set v _).length = st1.bufPool.length
          rw [List.length_set]

/- ### The flushFile loop -/

lemma flushLoop_nil (f : Nat) (st : BufState) :
    flushLoop f [] st = (.ok (), st) := rfl

lemma flushLoop_cons (f i : Nat) (rest : List Nat) (st : BufState) :
    flushLoop f (i :: rest) st =
      (if (getDesc st i).file = some f then
        if (getDesc st i).pinCnt ≠ 0 then (.error .pagePinned, st)
        else if !(getDesc st i).valid then (.error .badBuffer, st)
        else
          let st1 := if (getDesc st i).dirty
                     then setDesc (fileWritePage st f (getPool st i)) i
                            { (getDesc (fileWritePage st f (getPool st i)) i)
                              with dirty := false }
                     else st
          match (getDesc st1 i).pageNo with
          | some p =>
            if htContains st1.hashTable f p then
              flushLoop f rest
                (setDesc { st1 with hashTable := htRemove st1.hashTable f p } i
                  ((getDesc { st1 with
                      hashTable := htRemove st1.hashTable f p } i).Clear))
            else (.error .hashNotFound, st1)
          | none => (.error .hashNotFound, st1)
       else flushLoop f rest st) := rfl

lemma flushLoop_cons_skip {st : BufState} {f i : Nat} (rest : List Nat)
    (hno : ¬((getDesc st i).file = some f)) :
    flushLoop f (i :: rest) st = flushLoop f rest st := by
  rw [flushLoop_cons, if_neg hno]

lemma flushLoop_cons_pinned {st : BufState} {f i : Nat} (rest : List Nat)
    (hown : (getDesc st i).file = some f)
    (hpin : (getDesc st i).pinCnt ≠ 0) :
    flushLoop f (i :: rest) st = (.error .pagePinned, st) := by
  rw [flushLoop_cons, if_pos hown, if_pos hpin]

lemma flushLoop_cons_invalid {st : BufState} {f i : Nat} (rest : List Nat)
    (hown : (getDesc st i).file = some f)
    (hpin : (getDesc st i).pinCnt = 0)
    (hval : (getDesc st i).valid = false) :
    flushLoop f (i :: rest) st = (.error .badBuffer, st) := by
  rw [flushLoop_cons, if_pos hown, if_neg (fun hh => hh hpin),
      if_pos (show (!(getDesc st i).valid) = true from by rw [hval]; rfl)]

lemma flushLoop_cons_live {st : BufState} {f i : Nat} (rest : List Nat)
    (hown : (getDesc st i).file = some f)
    (hpin : (getDesc st i).pinCnt = 0)
    (hval : (getDesc st i).valid = true)
    (st1 : BufState)
    (hst1 : st1 = (if (getDesc st i).dirty
                   then setDesc (fileWritePage st f (getPool st i)) i
                          { (getDesc (fileWritePage st f (getPool st i)) i)
                            with dirty := false }
                   else st)) :
    flushLoop f (i :: rest) st =
      (match (getDesc st1 i).pageNo with
       | some p =>
         if htContains st1.hashTable f p then
           flushLoop f rest
             (setDesc { st1 with hashTable := htRemove st1.hashTable f p } i
               ((getDesc { st1 with
                   hashTable := htRemove st1.hashTable f p } i).Clear))
         else (.error .hashNotFound, st1)
       | none => (.error .hashNotFound, st1)) := by
  subst hst1
  rw [flushLoop_cons, if_pos hown, if_neg (fun hh => hh hpin),
      if_neg (show ¬((!(getDesc st i).valid) = true) from by rw [hval]; simp)]

lemma flushLoop_cons_live2 {st : BufState} {f i p : Nat} (rest : List Nat)
    (hown : (getDesc st i).file = some f)
    (hpin : (getDesc st i).pinCnt = 0)
    (hval : (getDesc st i).valid = true)
    (st1 : BufState)
    (hst1 : st1 = (if (getDesc st i).dirty
                   then setDesc (fileWritePage st f (getPool st i)) i
                          { (getDesc (fileWritePage st f (getPool st i)) i)
                            with dirty := false }
                   else st))
    (hp1 : (getDesc st1 i).pageNo = some p) :
    flushLoop f (i :: rest) st =
      (if htContains st1.hashTable f p then
         flushLoop f rest
           (setDesc { st1 with hashTable := htRemove st1.hashTable f p } i
             ((getDesc { st1 with
                 hashTable := htRemove st1.hashTable f p } i).Clear))
       else (.error .hashNotFound, st1)) := by
  rw [flushLoop_cons_live rest hown hpin hval st1 hst1, hp1]

lemma flushLoop_cons_owned {st : BufState} {f i : Nat} (rest : List Nat)
    (h : Inv st) (hi : i < numBufs st)
    (hown : (getDesc st i).file = some f)
    (hpin : (getDesc st i).pinCnt = 0)
    (hval : (getDesc st i).valid = true) :
    ∃ (stX : BufState) (p : Nat),
      (getDesc st i).pageNo = some p ∧
      flushLoop f (i :: rest) st = flushLoop f rest stX ∧
      Inv stX ∧
      getDesc stX i = mkBufDesc i ∧
      (∀ j, j ≠ i → getDesc stX j = getDesc st j) ∧
      (∀ e ∈ stX.hashTable, e ∈ st.hashTable ∧ e.2 ≠ i) ∧
      stX.hashTable = htRemove st.hashTable f p ∧
      stX.bufPool = st.bufPool ∧ stX.clockHand = st.clockHand ∧
      stX.fid = st.fid ∧ numBufs stX = numBufs st ∧
      ((getDesc st i).dirty = true →
         stX.events = st.events ++ [DiskOp.writeP f (getPool st i)]) ∧
      ((getDesc st i).dirty = false →
         stX.events = st.events ∧ stX.files = st.files) := by
  obtain ⟨hS1, hS2, hmem⟩ := h.2.2.2.2.2.2 i hi hval
  obtain ⟨p, hp⟩ := Option.isSome_iff_exists.1 hS2
  have hkey : descKey (getDesc st i) = (f, p) := by
    unfold descKey
    rw [hown, hp]
    rfl
  rw [hkey] at hmem
  by_cases hd : (getDesc st i).dirty = true
  · -- dirty slot: write back, clear the dirty bit, then remove and clear
    have hiW : i < numBufs (fileWritePage st f (getPool st i)) := hi
    have hst1self : getDesc (setDesc (fileWritePage st f (getPool st i)) i
        { (getDesc (fileWritePage st f (getPool st i)) i) with dirty := false }) i
        = { (getDesc st i) with dirty := false } := by
      rw [getDesc_setDesc_self _ _ hiW]
      rfl
    have hst1ne : ∀ j, i ≠ j →
        getDesc (setDesc (fileWritePage st f (getPool st i)) i
          { (getDesc (fileWritePage st f (getPool st i)) i) with dirty := false }) j
        = getDesc st j := by
      intro j hj
      rw [getDesc_setDesc_ne _ _ hj]
      rfl
    have hstep := flushLoop_cons_live2 rest hown hpin hval
      (setDesc (fileWritePage st f (getPool st i)) i
        { (getDesc (fileWritePage st f (getPool st i)) i) with dirty := false })
      (by rw [if_pos hd])
      (by rw [hst1self]; exact hp)
    have hInvW : Inv (fileWritePage st f (getPool st i)) :=
      Inv_transport h rfl rfl rfl rfl
    have hInv1 : Inv (setDesc (fileWritePage st f (getPool st i)) i
        { (getDesc (fileWritePage st f (getPool st i)) i) with
          dirty := false }) := by
      refine Inv_setKeep hInvW hiW rfl rfl rfl rfl ?_
      intro hh
      rw [show ({ (getDesc (fileWritePage st f (getPool st i)) i) with
          dirty := false } : BufDesc).valid
          = (getDesc st i).valid from rfl, hval] at hh
      exact absurd hh (by simp)
    have hi1 : i < numBufs (setDesc (fileWritePage st f (getPool st i)) i
        { (getDesc (fileWritePage st f (getPool st i)) i) with
          dirty := false }) := by
      rw [numBufs_setDesc]
      exact hiW
    have hmem1 : ((f, p), i) ∈ (setDesc (fileWritePage st f (getPool st i)) i
        { (getDesc (fileWritePage st f (getPool st i)) i) with
          dirty := false }).hashTable := hmem
    have hcont1 := htContains_of_mem hmem1
    rw [if_pos hcont1] at hstep
    obtain ⟨I1, I2, I3⟩ := Inv_removeClear hInv1 hi1
      (by rw [hst1self]; exact hval)
      (by rw [hst1self]; exact hown)
      (by rw [hst1self]; exact hp)
    refine ⟨_, p, hp, hstep, I1, I3, ?_, ?_, ?_, ?_, ?_, ?_, ?_, fun _ => ?_, ?_⟩
    · intro j hj
      rw [getDesc_setDesc_ne _ _ (fun hh => hj hh.symm)]
      exact hst1ne j (fun hh => hj hh.symm)
    · intro e he
      exact I2 e he
    · rfl
    · rfl
    · rfl
    · rfl
    · show numBufs (setDesc _ i _) = numBufs st
      rw [numBufs_setDesc]
      show numBufs (setDesc _ i _) = numBufs st
      rw [numBufs_setDesc]
      rfl
    · rfl
    · intro hdf
      rw [hd] at hdf
      exact absurd hdf (by simp)
  · -- clean slot: just remove the mapping and clear the descriptor
    rw [Bool.not_eq_true] at hd
    have hcont := htContains_of_mem hmem
    have hstep := flushLoop_cons_live2 rest hown hpin hval st
      (by rw [if_neg (show ¬((getDesc st i).dirty = true) from by
        rw [hd]; exact Bool.false_ne_true)]) hp
    rw [if_pos hcont] at hstep
    obtain ⟨I1, I2, I3⟩ := Inv_removeClear h hi hval hown hp
    refine ⟨_, p, hp, hstep, I1, I3, ?_, I2, ?_, ?_, ?_, ?_, ?_, fun hdt => ?_,
      fun _ => ⟨rfl, rfl⟩⟩
    · intro j hj
      rw [getDesc_setDesc_ne _ _ (fun hh => hj hh.symm)]
      rfl
    · rfl
    · rfl
    · rfl
    · rfl
    · rw [numBufs_setDesc]
      rfl
    · rw [hdt] at hd
      exact absurd hd (by simp)

lemma getPool_congr {st st' : BufState} (h : st'.bufPool = st.bufPool)
    (i : Nat) : getPool st' i = getPool st i := by
  unfold getPool
  rw [h]

lemma getDesc_ge {st : BufState} {i : Nat} (h : numBufs st ≤ i) :
    getDesc st i = mkBufDesc 0 := by
  unfold getDesc
  rw [List.getD_eq_getElem?_getD, List.getElem?_eq_none h]
  rfl

lemma flushLoop_nomatch (f : Nat) : ∀ (l : List Nat) (st : BufState),
    (∀ i ∈ l, ¬((getDesc st i).file = some f)) →
    flushLoop f l st = (.ok (), st) := by
  intro l
  induction l with
  | nil => intro st _; rfl
  | cons i rest ih =>
    intro st hno
    rw [flushLoop_cons_skip rest (hno i (List.mem_cons_self i rest))]
    exact ih st (fun j hj => hno j (List.mem_cons_of_mem i hj))

lemma flushLoop_inv (f : Nat) : ∀ (l : List Nat) (st : BufState),
    Inv st → Inv (flushLoop f l st).2 := by
  intro l
  induction l with
  | nil => intro st h; exact h
  | cons i rest ih =>
    intro st h
    by_cases hown : (getDesc st i).file = some f
    · by_cases hpin : (getDesc st i).pinCnt = 0
      · by_cases hval : (getDesc st i).valid = true
        · obtain ⟨stX, p, hp, hstep, hInvX, _⟩ :=
            flushLoop_cons_owned rest h (lt_of_valid hval) hown hpin hval
          rw [hstep]
          exact ih stX hInvX
        · rw [Bool.not_eq_true] at hval
          rw [flushLoop_cons_invalid rest hown hpin hval]
          exact h
      · rw [flushLoop_cons_pinned rest hown hpin]
        exact h
    · rw [flushLoop_cons_skip rest hown]
      exact ih st h

lemma flushLoop_pinned (f : Nat) : ∀ (l : List Nat) (st : BufState),
    Inv st → (∀ i ∈ l, i < numBufs st) →
    (∃ i, i ∈ l ∧ (getDesc st i).file = some f ∧ (getDesc st i).pinCnt ≠ 0) →
    (flushLoop f l st).1 = .error .pagePinned := by
  intro l
  induction l with
  | nil =>
    intro st _ _ hex
    obtain ⟨i, hi, _⟩ := hex
    cases hi
  | cons i rest ih =>
    intro st h hb hex
    obtain ⟨j, hjmem, hjown, hjpin⟩ := hex
    by_cases hown : (getDesc st i).file = some f
    · by_cases hpin : (getDesc st i).pinCnt = 0
      · have hval : (getDesc st i).valid = true := by
          by_contra hv
          rw [Bool.not_eq_true] at hv
          have := (h.2.2.2.1 i (hb i (List.mem_cons_self i rest)) hv)
          rw [this] at hown
          exact Option.noConfusion hown
        obtain ⟨stX, p, hp, hstep, hInvX, hXi, hXne, hXfresh, hXht, hXpool,
          hXclock, hXfid, hXlen, hXevD, hXevC⟩ :=
          flushLoop_cons_owned rest h (hb i (List.mem_cons_self i rest))
            hown hpin hval
        rw [hstep]
        have hji : j ≠ i := by
          intro hh
          rw [hh] at hjpin
          exact hjpin hpin
        have hjrest : j ∈ rest := by
          rcases List.mem_cons.1 hjmem with h' | h'
          · exact absurd h' hji
          · exact h'
        refine ih stX hInvX ?_ ⟨j, hjrest, ?_, ?_⟩
        · intro k hk
          rw [hXlen]
          exact hb k (List.mem_cons_of_mem i hk)
        · rw [hXne j hji]
          exact hjown
        · rw [hXne j hji]
          exact hjpin
      · rw [flushLoop_cons_pinned rest hown hpin]
    · rw [flushLoop_cons_skip rest hown]
      have hji : j ≠ i := by
        intro hh
        rw [hh] at hjown
        exact hown hjown
      have hjrest : j ∈ rest := by
        rcases List.mem_cons.1 hjmem with h' | h'
        · exact absurd h' hji
        · exact h'
      exact ih st h (fun k hk => hb k (List.mem_cons_of_mem i hk))
        ⟨j, hjrest, hjown, hjpin⟩

lemma flushLoop_badBuffer (f : Nat) : ∀ (l1 : List Nat) (i0 : Nat)
    (l2 : List Nat) (st : BufState),
    (∀ j ∈ l1, ¬((getDesc st j).file = some f)) →
    (getDesc st i0).file = some f → (getDesc st i0).pinCnt = 0 →
    (getDesc st i0).valid = false →
    flushLoop f (l1 ++ i0 :: l2) st = (.error .badBuffer, st) := by
  intro l1
  induction l1 with
  | nil =>
    intro i0 l2 st _ hown hpin hval
    exact flushLoop_cons_invalid l2 hown hpin hval
  | cons j t ih =>
    intro i0 l2 st hno hown hpin hval
    rw [List.cons_append,
        flushLoop_cons_skip _ (hno j (List.mem_cons_self j t))]
    exact ih i0 l2 st (fun k hk => hno k (List.mem_cons_of_mem j hk))
      hown hpin hval

lemma flushLoop_ok (f : Nat) : ∀ (l : List Nat) (st : BufState),
    Inv st → l.Nodup → (∀ i ∈ l, i < numBufs st) →
    (∀ i ∈ l, (getDesc st i).file = some f →
       (getDesc st i).pinCnt = 0 ∧ (getDesc st i).valid = true) →
    (flushLoop f l st).1 = .ok () ∧
    Inv (flushLoop f l st).2 ∧
    (∀ i ∈ l, getDesc (flushLoop f l st).2 i =
       (if (getDesc st i).file = some f then mkBufDesc i else getDesc st i)) ∧
    (∀ j, j ∉ l → getDesc (flushLoop f l st).2 j = getDesc st j) ∧
    (∀ e ∈ (flushLoop f l st).2.hashTable,
       e ∈ st.hashTable ∧ ¬(e.1.1 = f ∧ e.2 ∈ l)) ∧
    (∀ e ∈ st.hashTable, ¬(e.1.1 = f ∧ e.2 ∈ l) →
       e ∈ (flushLoop f l st).2.hashTable) ∧
    (∀ i ∈ l, (getDesc st i).file = some f → (getDesc st i).dirty = true →
       DiskOp.writeP f (getPool st i) ∈ (flushLoop f l st).2.events) ∧
    (∀ ev ∈ st.events, ev ∈ (flushLoop f l st).2.events) ∧
    (flushLoop f l st).2.bufPool = st.bufPool ∧
    (flushLoop f l st).2.clockHand = st.clockHand ∧
    (flushLoop f l st).2.fid = st.fid ∧
    numBufs (flushLoop f l st).2 = numBufs st := by
  intro l
  induction l with
  | nil =>
    intro st h _ _ _
    exact ⟨rfl, h, fun i hi => absurd hi (List.not_mem_nil i),
      fun j _ => rfl, fun e he => ⟨he, fun hh => absurd hh.2 (List.not_mem_nil _)⟩,
      fun e he _ => he, fun i hi => absurd hi (List.not_mem_nil i),
      fun ev hev => hev, rfl, rfl, rfl, rfl⟩
  | cons i rest ih =>
    intro st h hnd hb ho
    rw [List.nodup_cons] at hnd
    obtain ⟨hinotin, hndrest⟩ := hnd
    by_cases hown : (getDesc st i).file = some f
    · obtain ⟨hpin, hval⟩ := ho i (List.mem_cons_self i rest) hown
      obtain ⟨stX, p, hp, hstep, hInvX, hXi, hXne, hXfresh, hXht, hXpool,
        hXclock, hXfid, hXlen, hXevD, hXevC⟩ :=
        flushLoop_cons_owned rest h (hb i (List.mem_cons_self i rest))
          hown hpin hval
      rw [hstep]
      have hbX : ∀ j ∈ rest, j < numBufs stX := by
        intro j hj
        rw [hXlen]
        exact hb j (List.mem_cons_of_mem i hj)
      have hoX : ∀ j ∈ rest, (getDesc stX j).file = some f →
          (getDesc stX j).pinCnt = 0 ∧ (getDesc stX j).valid = true := by
        intro j hj hoj
        have hji : j ≠ i := fun hh => hinotin (hh ▸ hj)
        rw [hXne j hji] at hoj ⊢
        exact ho j (List.mem_cons_of_mem i hj) hoj
      obtain ⟨k1, k2, k3, k4, k5, k6, k7, k8, k9, k10, k11, k12⟩ :=
        ih stX hInvX hndrest hbX hoX
      have hevsub : ∀ ev ∈ st.events, ev ∈ stX.events := by
        intro ev hev
        by_cases hd : (getDesc st i).dirty = true
        · rw [hXevD hd]
          exact List.mem_append_left _ hev
        · rw [Bool.not_eq_true] at hd
          rw [(hXevC hd).1]
          exact hev
      refine ⟨k1, k2, ?_, ?_, ?_, ?_, ?_, ?_, k9.trans hXpool,
        k10.trans hXclock, k11.trans hXfid, k12.trans hXlen⟩
      · intro j hj
        rcases List.mem_cons.1 hj with hh | hh
        · subst hh
          rw [k4 j hinotin, hXi, if_pos hown]
        · have hji : j ≠ i := fun hx => hinotin (hx ▸ hh)
          rw [k3 j hh, hXne j hji]
      · intro j hj
        have hji : j ≠ i := fun hh => hj (hh ▸ List.mem_cons_self i rest)
        have hjrest : j ∉ rest := fun hh => hj (List.mem_cons_of_mem i hh)
        rw [k4 j hjrest, hXne j hji]
      · intro e he
        obtain ⟨heX, hkey⟩ := k5 e he
        obtain ⟨hest, hei⟩ := hXfresh e heX
        refine ⟨hest, ?_⟩
        rintro ⟨hkf, hmem⟩
        rcases List.mem_cons.1 hmem with hh | hh
        · exact hei hh
        · exact hkey ⟨hkf, hh⟩
      · intro e he hk
        have hkf : ¬(e.1.1 = f ∧ e.2 ∈ rest) := by
          rintro ⟨h1, h2⟩
          exact hk ⟨h1, List.mem_cons_of_mem i h2⟩
        refine k6 e ?_ hkf
        rw [hXht, mem_htRemove]
        refine ⟨he, ?_⟩
        intro hkey
        obtain ⟨e1, e2, e3, e4⟩ := h.2.2.2.2.2.1 e he
        have he21 : e.1.1 = f := by
          rw [hkey]
        have he22 : e.1.2 = p := by
          rw [hkey]
        rw [he21] at e3
        rw [he22] at e4
        have : e.2 = i :=
          Inv_unique h e1 (hb i (List.mem_cons_self i rest)) e2 hval e3 hown
            e4 hp
        exact hk ⟨he21, this ▸ List.mem_cons_self i rest⟩
      · intro j hj hjown hjdirty
        rcases List.mem_cons.1 hj with hh | hh
        · subst hh
          exact k8 _ (hXevD hjdirty ▸
            List.mem_append_right _ (List.mem_singleton_self _))
        · have hji : j ≠ i := fun hx => hinotin (hx ▸ hh)
          have := k7 j hh (by rw [hXne j hji]; exact hjown)
            (by rw [hXne j hji]; exact hjdirty)
          rw [getPool_congr hXpool] at this
          exact this
      · intro ev hev
        exact k8 ev (hevsub ev hev)
    · rw [flushLoop_cons_skip rest hown]
      obtain ⟨k1, k2, k3, k4, k5, k6, k7, k8, k9, k10, k11, k12⟩ :=
        ih st h hndrest (fun j hj => hb j (List.mem_cons_of_mem i hj))
          (fun j hj => ho j (List.mem_cons_of_mem i hj))
      refine ⟨k1, k2, ?_, ?_, ?_, ?_, ?_, k8, k9, k10, k11, k12⟩
      · intro j hj
        rcases List.mem_cons.1 hj with hh | hh
        · subst hh
          rw [k4 j hinotin, if_neg hown]
        · exact k3 j hh
      · intro j hj
        exact k4 j (fun hh => hj (List.mem_cons_of_mem i hh))
      · intro e he
        obtain ⟨hest, hkey⟩ := k5 e he
        refine ⟨hest, ?_⟩
        rintro ⟨hkf, hmem⟩
        rcases List.mem_cons.1 hmem with hh | hh
        · obtain ⟨e1, e2, e3, e4⟩ := h.2.2.2.2.2.1 e hest
          rw [hkf] at e3
          rw [hh] at e3
          exact hown e3
        · exact hkey ⟨hkf, hh⟩
      · intro e he hk
        refine k6 e he ?_
        rintro ⟨h1, h2⟩
        exact hk ⟨h1, List.mem_cons_of_mem i h2⟩
      · intro j hj hjown hjdirty
        rcases List.mem_cons.1 hj with hh | hh
        · subst hh
          exact absurd hjown hown
        · exact k7 j hh hjown hjdirty

/- ### The disposePage loop -/

lemma disposeLoop_nil (f p : Nat) (st : BufState) :
    disposeLoop f p [] st = (.ok (), st) := rfl

lemma disposeLoop_cons (f p i : Nat) (rest : List Nat) (st : BufState) :
    disposeLoop f p (i :: rest) st =
      (if (getDesc st i).file = some f ∧ (getDesc st i).pageNo = some p then
        if (getDesc st i).pinCnt > 0 then (.error .pagePinned, st)
        else
          if htContains (setDesc st i (getDesc st i).Clear).hashTable f p then
            disposeLoop f p rest
              { setDesc st i (getDesc st i).Clear with
                  hashTable :=
                    htRemove (setDesc st i (getDesc st i).Clear).hashTable f p }
          else (.error .hashNotFound, setDesc st i (getDesc st i).Clear)
       else disposeLoop f p rest st) := rfl

lemma disposeLoop_nomatch (f p : Nat) : ∀ (l : List Nat) (st : BufState),
    (∀ i ∈ l, ¬((getDesc st i).file = some f ∧ (getDesc st i).pageNo = some p)) →
    disposeLoop f p l st = (.ok (), st) := by
  intro l
  induction l with
  | nil => intro st _; rfl
  | cons i rest ih =>
    intro st hno
    rw [disposeLoop_cons, if_neg (hno i (List.mem_cons_self i rest))]
    exact ih st (fun j hj => hno j (List.mem_cons_of_mem i hj))

lemma disposeLoop_pinned (f p : Nat) : ∀ (l : List Nat) (st : BufState) (i : Nat),
    i ∈ l →
    (getDesc st i).file = some f → (getDesc st i).pageNo = some p →
    (getDesc st i).pinCnt > 0 →
    (∀ j ∈ l, j ≠ i →
      ¬((getDesc st j).file = some f ∧ (getDesc st j).pageNo = some p)) →
    disposeLoop f p l st = (.error .pagePinned, st) := by
  intro l
  induction l with
  | nil => intro st i hi; cases hi
  | cons j rest ih =>
    intro st i hi hf hp hpin hno
    by_cases hji : j = i
    · subst hji
      rw [disposeLoop_cons, if_pos ⟨hf, hp⟩, if_pos hpin]
    · have hjno : ¬((getDesc st j).file = some f ∧
          (getDesc st j).pageNo = some p) :=
        hno j (List.mem_cons_self j rest) hji
      rw [disposeLoop_cons, if_neg hjno]
      have hirest : i ∈ rest := by
        rcases List.mem_cons.1 hi with h' | h'
        · exact absurd h'.symm hji
        · exact h'
      exact ih st i hirest hf hp hpin
        (fun k hk hki => hno k (List.mem_cons_of_mem j hk) hki)

lemma disposeLoop_found (f p : Nat) : ∀ (l : List Nat) (st : BufState) (i : Nat),
    i ∈ l →
    (getDesc st i).file = some f → (getDesc st i).pageNo = some p →
    (getDesc st i).pinCnt = 0 →
    htContains st.hashTable f p = true →
    (∀ j ∈ l, j ≠ i →
      ¬((getDesc st j).file = some f ∧ (getDesc st j).pageNo = some p)) →
    disposeLoop f p l st = (.ok (),
      { setDesc st i (getDesc st i).Clear with
          hashTable := htRemove st.hashTable f p }) := by
  intro l
  induction l with
  | nil => intro st i hi; cases hi
  | cons j rest ih =>
    intro st i hi hf hp hpin hcont hno
    by_cases hji : j = i
    · subst hji
      rw [disposeLoop_cons, if_pos ⟨hf, hp⟩,
          if_neg (show ¬((getDesc st j).pinCnt > 0) from by
            rw [hpin]; exact Nat.lt_irrefl 0),
          if_pos (show htContains (setDesc st j
            (getDesc st j).Clear).hashTable f p = true from hcont)]
      refine disposeLoop_nomatch f p rest _ ?_
      intro k hk
      by_cases hkj : j = k
      · subst hkj
        intro hmt
        have : getDesc ({ setDesc st j (getDesc st j).Clear with
            hashTable := htRemove (setDesc st j
              (getDesc st j).Clear).hashTable f p } : BufState) j
            = getDesc (setDesc st j (getDesc st j).Clear) j := rfl
        rw [this] at hmt
        by_cases hjlen : j < numBufs st
        · rw [getDesc_setDesc_self _ _ hjlen] at hmt
          exact Option.noConfusion hmt.1
        · have hge : numBufs st ≤ j := Nat.le_of_not_lt hjlen
          have : getDesc st j = mkBufDesc 0 := getDesc_ge hge
          rw [this] at hf
          exact Option.noConfusion hf
      · intro hmt
        have : getDesc ({ setDesc st j (getDesc st j).Clear with
            hashTable := htRemove (setDesc st j
              (getDesc st j).Clear).hashTable f p } : BufState) k
            = getDesc st k := getDesc_setDesc_ne _ _ hkj
        rw [this] at hmt
        exact hno k (List.mem_cons_of_mem j hk) (fun hh => hkj hh.symm) hmt
    · have hjno : ¬((getDesc st j).file = some f ∧
          (getDesc st j).pageNo = some p) :=
        hno j (List.mem_cons_self j rest) hji
      rw [disposeLoop_cons, if_neg hjno]
      have hirest : i ∈ rest := by
        rcases List.mem_cons.1 hi with h' | h'
        · exact absurd h'.symm hji
        · exact h'
      exact ih st i hirest hf hp hpin hcont
        (fun k hk hki => hno k (List.mem_cons_of_mem j hk) hki)

/- ### disposePage at the top level -/

lemma disposePage_run {st : BufState} {f p : Nat} {st1 : BufState}
    (h : disposeLoop f p (List.range (numBufs st)) st = (.ok (), st1)) :
    disposePage st f p = (.ok (), fileDeletePage st1 f p) := by
  unfold disposePage
  rw [h]

lemma disposePage_err {st : BufState} {f p : Nat} {e : BufError} {st1 : BufState}
    (h : disposeLoop f p (List.range (numBufs st)) st = (.error e, st1)) :
    disposePage st f p = (.error e, st1) := by
  unfold disposePage
  rw [h]

lemma fsRead_fileDeletePage (st : BufState) (f p : Nat) :
    fsRead (getFileD (fileDeletePage st f p).files f) p = none := by
  show fsRead (getFileD (setFile st.files f
    (fsDelete (getFileD st.files f) p)) f) p = none
  rw [getFileD_setFile_self]
  exact fsRead_fsDelete_self _ p

lemma dispose_match_unique {st : BufState} (h : Inv st) {i f p : Nat}
    (hi : i < numBufs st)
    (hf : (getDesc st i).file = some f)
    (hp : (getDesc st i).pageNo = some p) :
    (getDesc st i).valid = true ∧
    (∀ j, j ≠ i →
      ¬((getDesc st j).file = some f ∧ (getDesc st j).pageNo = some p)) := by
  have hval : (getDesc st i).valid = true := by
    by_contra hv
    rw [Bool.not_eq_true] at hv
    have := h.2.2.2.1 i hi hv
    rw [this] at hf
    exact Option.noConfusion hf
  refine ⟨hval, ?_⟩
  intro j hji hmt
  by_cases hj : j < numBufs st
  · have hvalj : (getDesc st j).valid = true := by
      by_contra hv
      rw [Bool.not_eq_true] at hv
      have := h.2.2.2.1 j hj hv
      rw [this] at hmt
      exact Option.noConfusion hmt.1
    exact hji (Inv_unique h hj hi hvalj hval hmt.1 hf hmt.2 hp)
  · have := getDesc_ge (Nat.le_of_not_lt hj)
    rw [this] at hmt
    exact Option.noConfusion hmt.1

lemma disposePage_pinned_spec {st : BufState} {f p i : Nat} (h : Inv st)
    (hi : i < numBufs st)
    (hf : (getDesc st i).file = some f)
    (hp : (getDesc st i).pageNo = some p)
    (hpin : (getDesc st i).pinCnt > 0) :
    disposePage st f p = (.error .pagePinned, st) := by
  obtain ⟨hval, huniq⟩ := dispose_match_unique h hi hf hp
  exact disposePage_err (disposeLoop_pinned f p (List.range (numBufs st)) st i
    (List.mem_range.2 hi) hf hp hpin
    (fun j hj hji => huniq j hji))

lemma disposePage_found_spec {st : BufState} {f p i : Nat} (h : Inv st)
    (hi : i < numBufs st)
    (hf : (getDesc st i).file = some f)
    (hp : (getDesc st i).pageNo = some p)
    (hpin : (getDesc st i).pinCnt = 0) :
    disposePage st f p = (.ok (), fileDeletePage
      { setDesc st i (getDesc st i).Clear with
          hashTable := htRemove st.hashTable f p } f p) := by
  obtain ⟨hval, huniq⟩ := dispose_match_unique h hi hf hp
  obtain ⟨_, _, hmem⟩ := h.2.2.2.2.2.2 i hi hval
  have hkey : descKey (getDesc st i) = (f, p) := by
    unfold descKey
    rw [hf, hp]
    rfl
  rw [hkey] at hmem
  exact disposePage_run (disposeLoop_found f p (List.range (numBufs st)) st i
    (List.mem_range.2 hi) hf hp hpin (htContains_of_mem hmem)
    (fun j hj hji => huniq j hji))

lemma disposePage_notcached_spec {st : BufState} {f p : Nat}
    (hno : ∀ i, i < numBufs st →
      ¬((getDesc st i).file = some f ∧ (getDesc st i).pageNo = some p)) :
    disposePage st f p = (.ok (), fileDeletePage st f p) :=
  disposePage_run (disposeLoop_nomatch f p (List.range (numBufs st)) st
    (fun i hi => hno i (List.mem_range.1 hi)))

lemma disposePage_inv {st : BufState} {f p : Nat} (h : Inv st) :
    Inv (disposePage st f p).2 := by
  by_cases hex : ∃ i, i < numBufs st ∧ (getDesc st i).file = some f ∧
      (getDesc st i).pageNo = some p
  · obtain ⟨i, hi, hf, hp⟩ := hex
    obtain ⟨hval, _⟩ := dispose_match_unique h hi hf hp
    by_cases hpin : (getDesc st i).pinCnt > 0
    · rw [disposePage_pinned_spec h hi hf hp hpin]
      exact h
    · have hpin0 : (getDesc st i).pinCnt = 0 := Nat.eq_zero_of_not_pos hpin
      rw [disposePage_found_spec h hi hf hp hpin0]
      have hIY : Inv ({ setDesc st i (getDesc st i).Clear with
          hashTable := htRemove st.hashTable f p } : BufState) :=
        (Inv_removeClear h hi hval hf hp).1
      exact Inv_transport hIY rfl rfl rfl rfl
  · have hno : ∀ i, i < numBufs st →
        ¬((getDesc st i).file = some f ∧ (getDesc st i).pageNo = some p) :=
      fun i hi hm => hex ⟨i, hi, hm.1, hm.2⟩
    rw [disposePage_notcached_spec hno]
    exact Inv_transport h rfl rfl rfl rfl

lemma flushFile_def (st : BufState) (f : Nat) :
    flushFile st f = flushLoop f (List.range (numBufs st)) st := rfl

lemma flushFile_inv {st : BufState} {f : Nat} (h : Inv st) :
    Inv (flushFile st f).2 := by
  rw [flushFile_def]
  exact flushLoop_inv f _ st h

lemma range_split {i0 n : Nat} (h : i0 < n) :
    ∃ l2, List.range n = List.range i0 ++ i0 :: l2 := by
  induction n with
  | zero => cases h
  | succ n ih =>
    rcases Nat.lt_succ_iff_lt_or_eq.1 h with h' | h'
    · obtain ⟨l2, hl⟩ := ih h'
      refine ⟨l2 ++ [n], ?_⟩
      rw [List.range_succ, hl, List.append_assoc, List.cons_append]
    · subst h'
      refine ⟨[], ?_⟩
      rw [List.range_succ]

/- ### The ten claims -/

/-- C1: the blanket claim that a failing operation performs no observable
    mutation before failing is refuted by claim_C1_counterexample (a
    failing allocate clears a reference bit before throwing
    BufferExceededError, and a fetch whose disk read fails commits the
    eviction first).  This amended form holds: a failing release only
    touches the scratch fid, a failing dispose from an
    invariant-satisfying state fails with PagePinnedError and is exactly
    the identity on the state, and a fetch or allocate failing with
    BufferExceededError leaves pool, slot index (and for fetch disk and
    event trace) unchanged, with the descriptor table unchanged up to
    cleared reference bits. -/
theorem claim_C1 : C1amended := by
  unfold C1amended
  refine ⟨?_, ?_, ?_, ?_⟩
  · intro st f p md e h
    rcases hl : htLookup st.hashTable f p with _ | i
    · rw [unPinPage_notfound hl] at h
      exact absurd h (by simp)
    · by_cases hz : (getDesc st i).pinCnt = 0
      · rw [unPinPage_zero hl hz]
        rfl
      · rw [unPinPage_pos hl hz] at h
        exact absurd h (by simp)
  · intro st st' f p e hInv hD
    by_cases hex : ∃ i, i < numBufs st ∧ (getDesc st i).file = some f ∧
        (getDesc st i).pageNo = some p
    · obtain ⟨i, hi, hf, hp⟩ := hex
      by_cases hpin : (getDesc st i).pinCnt > 0
      · rw [disposePage_pinned_spec hInv hi hf hp hpin] at hD
        have h1 : Except.error BufError.pagePinned = Except.error e :=
          congrArg Prod.fst hD
        have h2 : st = st' := congrArg Prod.snd hD
        refine ⟨?_, h2.symm⟩
        injection h1 with he
        exact he.symm
      · rw [disposePage_found_spec hInv hi hf hp
          (Nat.eq_zero_of_not_pos hpin)] at hD
        have h1 : Except.ok () = Except.error e := congrArg Prod.fst hD
        exact absurd h1 (by simp)
    · have hno : ∀ i, i < numBufs st →
          ¬((getDesc st i).file = some f ∧ (getDesc st i).pageNo = some p) :=
        fun i hi hm => hex ⟨i, hi, hm.1, hm.2⟩
      rw [disposePage_notcached_spec hno] at hD
      have h1 : Except.ok () = Except.error e := congrArg Prod.fst hD
      exact absurd h1 (by simp)
  · intro st st' f p h
    rcases hl : htLookup st.hashTable f p with _ | i
    · rcases hB : allocBuf st with _ | ⟨res, st1⟩
      · rw [readPage_miss_noalloc hl hB] at h
        exact absurd h (by simp)
      · rcases res with e | v
        · rw [readPage_miss_error hl hB] at h
          simp only [Option.some.injEq, Prod.mk.injEq] at h
          obtain ⟨hres, hst⟩ := h
          subst hst
          obtain ⟨c1, c2, c3, c4, c5, c6, c7, c8, c9⟩ := allocBuf_error_spec hB
          exact ⟨c5, c1, c2, c3, c7⟩
        · rw [readPage_miss_ok_unfold hl hB] at h
          split at h
          · simp at h
          · split at h
            · simp at h
            · simp at h
    · rw [readPage_hit hl] at h
      simp at h
  · intro st st' f h
    rcases hB : allocBuf (fileAllocatePage st f).2 with _ | ⟨res, st1⟩
    · rw [allocPage_none hB] at h
      exact absurd h (by simp)
    · rcases res with e | v
      · rw [allocPage_error hB] at h
        simp only [Option.some.injEq, Prod.mk.injEq] at h
        obtain ⟨hres, hst⟩ := h
        subst hst
        obtain ⟨c1, c2, c3, c4, c5, c6, c7, c8, c9⟩ := allocBuf_error_spec hB
        refine ⟨c5.trans rfl, c1.trans rfl, ?_⟩
        intro i
        rcases c7 i with h' | h'
        · exact Or.inl (h'.trans rfl)
        · exact Or.inr (h'.trans rfl)
      · rw [allocPage_ok_unfold hB] at h
        split at h
        · simp at h
        · simp at h

/-- Counterexample to C1 as stated: on the one-slot state st1pin the
    allocate operation fails with BufferExceededError, yet the descriptor
    table has been mutated before the failure (the reference bit of slot
    0 was cleared by the sweep). -/
theorem claim_C1_counterexample :
    allocPage st1pin 0 = some (.error .bufferExceeded, st1pinAfter) ∧
    ¬(st1pinAfter.bufDescTable = st1pin.bufDescTable) := by
  decide

/-- Witness for claim_C1 at concrete states: a failing release on
    stDirty, a pinned dispose on stF3, the exhausted fetch on stF3, and
    the exhausted allocate on st1pin. -/
theorem claim_C1_witness :
    obs (unPinPage stDirty 0 5 true).2 = obs stDirty ∧
    (BufError.pagePinned = BufError.pagePinned ∧ stF3 = stF3) ∧
    (stF3.bufPool = stF3.bufPool ∧ stF3.hashTable = stF3.hashTable ∧
      stF3.events = stF3.events ∧ stF3.files = stF3.files ∧
      refbitOnly stF3 stF3) ∧
    (st1pinAfter.bufPool = st1pin.bufPool ∧
      st1pinAfter.hashTable = st1pin.hashTable ∧
      refbitOnly st1pin st1pinAfter) :=
  ⟨claim_C1.1 stDirty 0 5 true BufError.pageNotPinned (by decide),
   claim_C1.2.1 stF3 stF3 0 0 BufError.pagePinned (by decide) (by decide),
   claim_C1.2.2.1 stF3 stF3 0 3 (by decide),
   claim_C1.2.2.2 st1pin st1pinAfter 0 (by decide)⟩

/-- C2: a fetch hit sets the reference bit, increments the pin count by
    exactly one and performs no disk I/O; a fetch miss propagates
    BufferExceededError from the replacer, and otherwise reads the page
    from the file into the chosen slot, inserts the mapping into the slot
    index and initializes the descriptor to valid, clean, unreferenced,
    pin count one with owner and page number set. -/
theorem claim_C2 (st : BufState) (f p : Nat) (h : Inv st) : C2concl st f p := by
  unfold C2concl C2hit C2missNoFrame C2missFrame
  constructor
  · intro i hl
    have hmem := htLookup_mem hl
    obtain ⟨hi0, _, _, _⟩ := h.2.2.2.2.2.1 _ hmem
    have hi : i < numBufs st := hi0
    have hi' : i < numBufs ({ st with fid := i } : BufState) := hi
    have hself := getDesc_setDesc_self ({ st with fid := i } : BufState)
      ({ getDesc st i with
          refbit := true, pinCnt := (getDesc st i).pinCnt + 1 }) hi'
    refine ⟨setDesc { st with fid := i } i
      { getDesc st i with
          refbit := true, pinCnt := (getDesc st i).pinCnt + 1 },
      readPage_hit hl, ?_, ?_, ?_, ?_, ?_, ?_, ?_, rfl, rfl, rfl, rfl, rfl⟩
    · rw [hself]
    · rw [hself]
    · rw [hself]
    · rw [hself]
    · rw [hself]
    · rw [hself]
    · intro j hj
      exact (getDesc_setDesc_ne ({ st with fid := i } : BufState) _
        (fun hh => hj hh.symm)).trans rfl
  · intro hl
    constructor
    · intro st1 hB
      exact readPage_miss_error hl hB
    · intro v st1 dta hB hR
      obtain ⟨st4, heq, hInv4, hvlt, hdesc, hother, hpool, hlook, hev,
        hfiles, hfid, hclk, hnum⟩ := readPage_miss_ok_spec h hl hB hR
      refine ⟨st4, heq, hvlt, ?_, ?_, ?_, ?_, ?_, ?_, hpool, hlook, hev⟩
      · rw [hdesc]
        rfl
      · rw [hdesc]
        rfl
      · rw [hdesc]
        rfl
      · rw [hdesc]
        rfl
      · rw [hdesc]
        rfl
      · rw [hdesc]
        rfl

/-- Witness for claim_C2: the hit half on the fully loaded three-slot
    pool. -/
theorem claim_C2_witness : Inv stF3 ∧ C2hit stF3 0 0 0 :=
  ⟨by decide, (claim_C2 stF3 0 0 (by decide)).1 0 (by decide)⟩

/-- C3: the only-if direction of the exhaustion claim holds in a
    strengthened form — BufferExceededError is only thrown with the
    cursor back exactly at the position it had at the start of this call,
    after a positive multiple of numBufs steps, on a valid unreferenced
    pinned slot, with nothing but reference bits changed — and the
    three-pinned-slots scenario of the spec fails exactly as promised.
    The if direction (failure whenever the sweep returns to the start
    without having found a frame) is refuted by
    claim_C3_counterexample. -/
theorem claim_C3 :
    (∀ st : BufState, C3only st) ∧
    readPage stF3 0 3 = some (.error .bufferExceeded, stF3) := by
  constructor
  · intro st
    unfold C3only
    intro fuel st' k hA hcl
    obtain ⟨c1, c2, c3, c4, c5⟩ :=
      allocBufAux_error st.clockHand fuel st st' _ k hA
    obtain ⟨d1, d2, d3, d4, d5⟩ :=
      allocBufAux_common st.clockHand fuel st st' _ k hA
    obtain ⟨e1, e2, e3, e4⟩ := c5 rfl
    have hmod : (st.clockHand + k) % numBufs st = st.clockHand := by
      rw [← d5, e1]
    obtain ⟨hdvd, hle⟩ := mod_cycle hcl d4 hmod
    exact ⟨hdvd, hle, e1, e2, e3, e4, c4, c1, c2⟩
  · decide

/-- Counterexample to the if direction of C3: on stWrap (two slots, the
    pinned slot 0 and the referenced slot 1, cursor starting at 1) the
    sweep takes k = 4 steps, so after 2 steps the cursor was back exactly
    at its starting position without having found a usable frame, yet the
    call succeeds with frame 1 instead of failing with
    BufferExceededError. -/
theorem claim_C3_counterexample :
    numBufs stWrap = 2 ∧ stWrap.clockHand = 1 ∧
    (allocBufAux stWrap.clockHand (2 * numBufs stWrap + 2) stWrap).map
      (fun r => (r.1, r.2.2)) = some (Except.ok 1, 4) := by
  decide

/-- Witness for claim_C3 on the one-slot pinned state st1pin: the sweep
    fails after k = 2 steps, a positive multiple of numBufs = 1, back at
    the starting cursor position. -/
theorem claim_C3_witness :
    numBufs st1pin ∣ 2 ∧ numBufs st1pin ≤ 2 ∧
    st1pinSwept.clockHand = st1pin.clockHand ∧
    (getDesc st1pinSwept st1pin.clockHand).valid = true ∧
    (getDesc st1pinSwept st1pin.clockHand).refbit = false ∧
    (getDesc st1pinSwept st1pin.clockHand).pinCnt ≠ 0 ∧
    refbitOnly st1pin st1pinSwept ∧
    st1pinSwept.hashTable = st1pin.hashTable ∧
    st1pinSwept.events = st1pin.events :=
  claim_C3.1 st1pin 4 st1pinSwept 2 (by decide) (by decide)

/-- C4: during a sweep step, an invalid slot is returned immediately
    (cleared); a valid referenced slot has its reference bit cleared and
    the sweep continues; a valid, unreferenced, unpinned slot is the
    victim — its mapping is removed from the slot index and its
    descriptor left cleared; and on the concrete A/B state the referenced
    slot A merely loses its reference bit while the unreferenced slot B
    is evicted. -/
theorem claim_C4 : C4concl := by
  unfold C4concl C4invalid C4second C4victim
  refine ⟨?_, ?_, ?_, ?_⟩
  · intro starting fuel st hv
    exact allocBufAux_step_invalid starting fuel st hv
  · intro starting fuel st hv hr
    exact allocBufAux_step_ref starting fuel st hv hr
  · intro starting fuel st f p hv hr hp hf hpg hcont
    refine ⟨?_, ?_, ?_⟩
    · rw [allocBufAux_step_victim starting fuel st f p hv hr hp hf hpg,
        if_pos hcont]
    · rw [victimEvict_hashTable]
      exact htLookup_htRemove_self _ f p
    · intro hc
      have hc' : (advanceClock st).clockHand < numBufs (advanceClock st) := hc
      exact getDesc_victimEvict_self (advanceClock st) f p hc'
  · unfold C4scenario
    decide

/-- Witness for claim_C4: the invalid-slot behaviour applied to the
    freshly constructed three-slot pool (the slot after the initial
    cursor position is invalid and is returned immediately). -/
theorem claim_C4_witness :
    (getDesc (advanceClock stInit3) (advanceClock stInit3).clockHand).valid
      = false ∧
    allocBufAux stInit3.clockHand 7 stInit3 =
      some (.ok (getDesc (advanceClock stInit3)
              (advanceClock stInit3).clockHand).frameNo,
            setDesc (advanceClock stInit3) (advanceClock stInit3).clockHand
              ((getDesc (advanceClock stInit3)
                 (advanceClock stInit3).clockHand).Clear),
            1) :=
  ⟨by decide, claim_C4.1 stInit3.clockHand 6 stInit3 (by decide)⟩

/-- C5: when the replacer hands out a frame whose descriptor was dirty,
    a writePage call through the owning file with that exact pool content
    happened during the call (it is the appended event), while the pool
    content itself is untouched. -/
theorem claim_C5 (st st1 : BufState) (v : Nat) (h : Inv st)
    (hA : allocBuf st = some (.ok v, st1))
    (hd : (getDesc st v).dirty = true) : C5concl st v st1 := by
  unfold C5concl
  rw [allocBuf_unfold] at hA
  rcases haux : allocBufAux st.clockHand (2 * numBufs st + 2) st
    with _ | ⟨res, stx, k⟩
  · rw [haux] at hA
    exact absurd hA (by simp)
  · rw [haux] at hA
    simp only [Option.map_some', Option.some.injEq, Prod.mk.injEq] at hA
    obtain ⟨hres, hst⟩ := hA
    subst hst
    rcases res with e2 | v2
    · exact Except.noConfusion hres
    · have hv2 : v2 = v := by injection hres
      subst hv2
      obtain ⟨stm, c1, c2, c3, c4, c5, c6, c7, c8, c9, c10⟩ :=
        allocBufAux_ok st.clockHand _ _ _ _ _ haux
      have h0 : 0 < numBufs st := Inv_pos h
      have hcm : stm.clockHand < numBufs st := c8 h0
      have hcm' : stm.clockHand < numBufs stm := by rw [c6]; exact hcm
      have hInvM : Inv stm := Inv_of_refbitOnly h c7 c1 c4 c6 hcm'
      have hvc : v2 = stm.clockHand := by
        rw [c9]
        exact hInvM.2.2.1 stm.clockHand hcm'
      subst hvc
      rcases c10 with ⟨hval, hst'⟩ |
        ⟨f, p, hval, href, hpin, hfile, hpage, hcont, hst'⟩
      · exfalso
        have hfe := (refbitOnly_fields c7 stm.clockHand).2.2.2.2.1
        have hmk := hInvM.2.2.2.1 stm.clockHand hcm' hval
        rw [hmk, hd] at hfe
        exact absurd hfe (by simp [mkBufDesc])
      · subst hst'
        have hfields := refbitOnly_fields c7 stm.clockHand
        refine ⟨f, ?_, ?_, ?_⟩
        · rw [← hfields.2.1]
          exact hfile
        · have hdm : (getDesc stm stm.clockHand).dirty = true := by
            rw [hfields.2.2.2.2.1]
            exact hd
          rw [victimEvict_events_dirty stm stm.clockHand f p hdm, c2,
            getPool_congr c1 stm.clockHand]
        · rw [victimEvict_bufPool]
          exact c1

/-- Witness for claim_C5: evicting the dirty slot of stDirty records the
    write-back of its pool content. -/
theorem claim_C5_witness : Inv stDirty ∧ C5concl stDirty 0 stDirtyAfter :=
  ⟨by decide, claim_C5 stDirty stDirtyAfter 0 (by decide) (by decide) (by decide)⟩

/-- C6: from any state satisfying the uniqueness/exact-inverse invariant,
    every public operation (fetch, release, allocate, dispose, flush)
    reestablishes it, no two valid frames hold the same identity, and
    the slot index maps an identity to a frame exactly when that frame is
    valid and holds the identity. -/
theorem claim_C6 (st : BufState) (h : Inv st) : C6concl st := by
  unfold C6concl
  refine ⟨?_, ?_, ?_, ?_, ?_, ?_, ?_⟩
  · intro f p r st' hA
    exact readPage_inv h hA
  · intro f p md
    exact unPinPage_inv h
  · intro f r st' hA
    exact allocPage_inv h hA
  · intro f p
    exact disposePage_inv h
  · intro f
    exact flushFile_inv h
  · intro i j fx px hi hj hvi hvj hfi hpi hfj hpj
    exact Inv_unique h hi hj hvi hvj hfi hfj hpi hpj
  · intro fx px i
    exact Inv_lookup_iff h fx px i

/-- Witness for claim_C6 on the fully loaded three-slot pool. -/
theorem claim_C6_witness : C6concl stF3 := claim_C6 stF3 (by decide)

/-- C7: the spec demands a PageNotFoundError when no frame maps the
    identity; buffer.cpp lines 192-194 instead catch the
    HashNotFoundException and return silently — release on an unmapped
    identity succeeds and is the identity on the state, as this amended
    statement proves and claim_C7_counterexample exhibits concretely. -/
theorem claim_C7 (st : BufState) (f p : Nat) (md : Bool)
    (hl : htLookup st.hashTable f p = none) :
    unPinPage st f p md = (.ok (), st) :=
  unPinPage_notfound hl

/-- Counterexample to C7 as stated: releasing the unmapped page 9 of
    file 0 on the three-slot pool returns success (not an error) and
    leaves the state exactly unchanged. -/
theorem claim_C7_counterexample :
    htLookup stF3.hashTable 0 9 = none ∧
    unPinPage stF3 0 9 true = (.ok (), stF3) := by
  decide

/-- Witness for claim_C7. -/
theorem claim_C7_witness :
    htLookup stF3.hashTable 0 8 = none ∧
    unPinPage stF3 0 8 true = (.ok (), stF3) :=
  ⟨by decide, claim_C7 stF3 0 8 true (by decide)⟩

/-- C8: when a frame maps the identity, a release with pin count zero
    fails with PageNotPinnedError leaving everything observable
    unchanged (so the pin count never drops below zero); with a positive
    pin count it decrements the pin count by exactly one and ors the
    dirty flag with markDirty — the dirty flag is sticky, never cleared
    here. -/
theorem claim_C8 (st : BufState) (f p : Nat) (md : Bool) (h : Inv st) :
    C8concl st f p md := by
  unfold C8concl
  intro i hl
  have hmem := htLookup_mem hl
  obtain ⟨hi0, _, _, _⟩ := h.2.2.2.2.2.1 _ hmem
  have hi : i < numBufs st := hi0
  constructor
  · intro hz
    rw [unPinPage_zero hl hz]
    exact ⟨rfl, rfl⟩
  · intro hz
    rw [unPinPage_pos hl hz]
    have hi' : i < numBufs ({ st with fid := i } : BufState) := hi
    have hself := getDesc_setDesc_self ({ st with fid := i } : BufState)
      (if md then
        { { getDesc st i with pinCnt := (getDesc st i).pinCnt - 1 } with
          dirty := true }
       else { getDesc st i with pinCnt := (getDesc st i).pinCnt - 1 }) hi'
    obtain ⟨u1, u2, u3, u4, u5, u6, u7⟩ := unpin_update_fields (getDesc st i) md
    refine ⟨setDesc { st with fid := i } i
      (if md then
        { { getDesc st i with pinCnt := (getDesc st i).pinCnt - 1 } with
          dirty := true }
       else { getDesc st i with pinCnt := (getDesc st i).pinCnt - 1 }),
      rfl, ?_, ?_, ?_, ?_, ?_, ?_, ?_, rfl, rfl, rfl, rfl, rfl⟩
    · rw [hself, u5]
      omega
    · rw [hself, u7]
    · rw [hself, u1]
    · rw [hself, u6]
    · rw [hself, u2]
    · rw [hself, u3]
    · intro j hj
      exact (getDesc_setDesc_ne ({ st with fid := i } : BufState) _
        (fun hh => hj hh.symm)).trans rfl

/-- Witness for claim_C8: releasing the pinned page 0 of file 0 on the
    three-slot pool with markDirty set. -/
theorem claim_C8_witness : Inv stF3 ∧ C8concl stF3 0 0 true :=
  ⟨by decide, claim_C8 stF3 0 0 true (by decide)⟩

/-- C9: a flush of a file all of whose owned slots are unpinned and
    valid succeeds, writes dirty slot contents back, removes every
    mapping of the file from the slot index and clears every owned
    descriptor, so no slot references the file afterwards and a second
    flush is a no-op; a pinned owned slot makes the flush fail with
    PagePinnedError; and if the first owned slot is invalid, the flush
    fails with the bad-buffer error, leaving the state unchanged. -/
theorem claim_C9 (st : BufState) (f : Nat) : C9concl st f := by
  unfold C9concl C9ok C9pinned C9bad
  refine ⟨?_, ?_, ?_⟩
  · intro hInv hall
    obtain ⟨k1, k2, k3, k4, k5, k6, k7, k8, k9, k10, k11, k12⟩ :=
      flushLoop_ok f (List.range (numBufs st)) st hInv (List.nodup_range _)
        (fun i hi => List.mem_range.1 hi)
        (fun i hi ho => hall i (List.mem_range.1 hi) ho)
    have hne : ∀ i, i < numBufs st →
        ¬((getDesc (flushLoop f (List.range (numBufs st)) st).2 i).file
          = some f) := by
      intro i hi heq
      have h3 := k3 i (List.mem_range.2 hi)
      by_cases ho : (getDesc st i).file = some f
      · rw [if_pos ho] at h3
        rw [h3] at heq
        exact Option.noConfusion heq
      · rw [if_neg ho] at h3
        rw [h3] at heq
        exact ho heq
    refine ⟨k1, ?_, ?_, ?_, ?_⟩
    · intro i hi
      exact hne i hi
    · intro q
      rw [htLookup_eq_none]
      intro e he hkey
      obtain ⟨hest, hnot⟩ := k5 e he
      refine hnot ⟨congrArg Prod.fst hkey, ?_⟩
      have heo := hInv.2.2.2.2.2.1 e hest
      exact List.mem_range.2 heo.1
    · intro i hi ho hd
      exact k7 i (List.mem_range.2 hi) ho hd
    · refine flushLoop_nomatch f _ _ ?_
      intro i hi
      have hib : i < numBufs (flushLoop f (List.range (numBufs st)) st).2 :=
        List.mem_range.1 hi
      rw [k12] at hib
      exact hne i hib
  · intro hInv hex
    obtain ⟨i, hi, hown, hpin⟩ := hex
    exact flushLoop_pinned f (List.range (numBufs st)) st hInv
      (fun j hj => List.mem_range.1 hj)
      ⟨i, List.mem_range.2 hi, hown, hpin⟩
  · intro i0 hi0 hno hown hpin hval
    obtain ⟨l2, hl⟩ := range_split hi0
    show flushLoop f (List.range (numBufs st)) st = (.error .badBuffer, st)
    rw [hl]
    exact flushLoop_badBuffer f (List.range i0) i0 l2 st
      (fun j hj => hno j (List.mem_range.1 hj)) hown hpin hval

/-- Witness for claim_C9: a successful flush of file 0 on stDirty (one
    dirty unpinned slot), a pinned failure on the fully pinned stF3, and
    a bad-buffer failure on the corrupt one-slot state stBad. -/
theorem claim_C9_witness :
    ((flushFile stDirty 0).1 = Except.ok () ∧
     (∀ i, i < numBufs stDirty →
        ¬((getDesc (flushFile stDirty 0).2 i).file = some 0)) ∧
     (∀ q, htLookup (flushFile stDirty 0).2.hashTable 0 q = none) ∧
     (∀ i, i < numBufs stDirty → (getDesc stDirty i).file = some 0 →
        (getDesc stDirty i).dirty = true →
        DiskOp.writeP 0 (getPool stDirty i) ∈ (flushFile stDirty 0).2.events) ∧
     flushFile (flushFile stDirty 0).2 0 = (.ok (), (flushFile stDirty 0).2)) ∧
    (flushFile stF3 0).1 = Except.error BufError.pagePinned ∧
    flushFile stBad 0 = (Except.error BufError.badBuffer, stBad) :=
  ⟨(claim_C9 stDirty 0).1 (by decide) (by decide),
   (claim_C9 stF3 0).2.1 (by decide) ⟨0, by decide, by decide, by decide⟩,
   (claim_C9 stBad 0).2.2 0 (by decide)
     (fun j hj => absurd hj (Nat.not_lt_zero j)) (by decide) (by decide)
     (by decide)⟩

/-- C10: dispose of a cached identity fails with PagePinnedError when the
    pin count is positive, leaving the state exactly unchanged (so the
    deletePage of buffer.cpp line 87 is not reached); with pin count zero
    it clears the descriptor, removes the mapping from the slot index and
    deletes the page from the file; and on an uncached identity it is
    exactly the file deletion — in both successful cases deletePage is
    invoked (the deleteP event is appended) and the page is gone from the
    disk, with no write-back. -/
theorem claim_C10 (st : BufState) (f p : Nat) : C10concl st f p := by
  unfold C10concl
  constructor
  · intro hInv i hi hf hp
    constructor
    · intro hpin
      exact disposePage_pinned_spec hInv hi hf hp hpin
    · intro hpin
      rw [disposePage_found_spec hInv hi hf hp hpin]
      refine ⟨rfl, ?_, ?_, ?_, rfl, ?_⟩
      · show getDesc (setDesc st i (getDesc st i).Clear) i = mkBufDesc i
        rw [getDesc_setDesc_self st _ hi, Clear_eq_mkBufDesc,
          hInv.2.2.1 i hi]
      · intro j hj
        show getDesc (setDesc st i (getDesc st i).Clear) j = getDesc st j
        exact getDesc_setDesc_ne st _ (fun hh => hj hh.symm)
      · show htLookup (htRemove st.hashTable f p) f p = none
        exact htLookup_htRemove_self _ f p
      · exact fsRead_fileDeletePage _ f p
  · intro hno
    rw [disposePage_notcached_spec hno]
    exact ⟨rfl, rfl, rfl, rfl, fsRead_fileDeletePage st f p⟩

/-- Witness for claim_C10: a successful dispose of the cached unpinned
    page (0, 5) on stDirty, and a pinned failure on stF3. -/
theorem claim_C10_witness :
    Inv stDirty ∧
    ((disposePage stDirty 0 5).1 = Except.ok () ∧
     getDesc (disposePage stDirty 0 5).2 0 = mkBufDesc 0 ∧
     (∀ j, j ≠ 0 → getDesc (disposePage stDirty 0 5).2 j = getDesc stDirty j) ∧
     htLookup (disposePage stDirty 0 5).2.hashTable 0 5 = none ∧
     (disposePage stDirty 0 5).2.events
       = stDirty.events ++ [DiskOp.deleteP 0 5] ∧
     fsRead (getFileD (disposePage stDirty 0 5).2.files 0) 5 = none) ∧
    disposePage stF3 0 0 = (Except.error BufError.pagePinned, stF3) :=
  ⟨by decide,
   ((claim_C10 stDirty 0 5).1 (by decide) 0 (by decide) (by decide)
     (by decide)).2 (by decide),
   ((claim_C10 stF3 0 0).1 (by decide) 0 (by decide) (by decide)
     (by decide)).1 (by decide)⟩

end BufModel
